import Mathlib

/-!
Shallow embedding of the CAH engine (src/unnamed/part_000, a TypeScript file):
a guarded finite-state machine (class FSM), the Game state machine built on it,
and the card / player / collection value objects.

Modelling conventions:
* JS object identity (the `===` comparisons on Player / WhiteCard / BlackCard /
  CardCollection objects) is modelled by an identity token carried in each
  structure (`pid`, `wid`, `bid`, `cid`).  Cloning allocates a fresh token.
* JS `null` / `undefined` field values are modelled with `Option`.
* Thrown exceptions (TypeError on a null dereference, the KILLED unset hook,
  RangeError / TypeError in BlackCard#getDisplay) are modelled with
  `Except String`.  Expected domain failures are the `Info` result values,
  exactly as in the source.
* `Math.random()` draws and fresh-identity allocation are threaded through an
  explicit effect state `Eff`; `randomIndex len` takes the next pending number
  `r` and yields `r % len` (any element of `[0, len)`, the exact set of
  outcomes of `Math.floor(Math.random() * len)`; `0` when `len = 0`).
  `Eff.trace` logs every assignment `this.state = name` made by `setState`,
  in order, so that chained transitions are observable.
* Reentrant `setState` calls (the DEALING set hook) are handled by a fuel
  parameter; fuel `0` yields an error, and every theorem either supplies
  enough fuel or conditions on a non-error result.
-/

namespace CAH

instance {ε α : Type} [DecidableEq ε] [DecidableEq α] : DecidableEq (Except ε α) :=
  fun x y =>
  match x, y with
  | .ok a, .ok b =>
    if h : a = b then isTrue (congrArg Except.ok h)
    else isFalse fun hc => h (Except.ok.inj hc)
  | .error a, .error b =>
    if h : a = b then isTrue (congrArg Except.error h)
    else isFalse fun hc => h (Except.error.inj hc)
  | .ok _, .error _ => isFalse fun hc => Except.noConfusion hc
  | .error _, .ok _ => isFalse fun hc => Except.noConfusion hc

/-- `combineBooleans` (source line 58): AND of the boolean entries, ignoring
non-boolean (void) returns; `true` on the empty list. -/
def combineBooleans (arr : List (Option Bool)) : Bool :=
  arr.foldl (fun prev cur => match cur with | some b => prev && b | none => prev) true

/-- Result type `Info = [boolean, string?]` (source line 77). -/
abbrev Info := Bool × Option String

/-- Effect state threaded through the operations: pending random draws, the
next fresh identity token, and the log of state names assigned by `setState`. -/
structure Eff where
  rand : List Nat
  fresh : Nat
  trace : List String
  deriving DecidableEq

/-- Take the next pending random number (0 when the supply is exhausted). -/
def takeRand (e : Eff) : Nat × Eff :=
  match e.rand with
  | [] => (0, e)
  | r :: rs => (r, { e with rand := rs })

/-- `randomIndex` (source line 48): some index in `[0, length)`, `0` for an
empty length. -/
def randomIndex (length : Nat) (e : Eff) : Nat × Eff :=
  let (r, e') := takeRand e
  (if length = 0 then 0 else r % length, e')

/-- Allocate a fresh object-identity token. -/
def freshId (e : Eff) : Nat × Eff :=
  (e.fresh, { e with fresh := e.fresh + 1 })

/-- class WhiteCard (source line 724): a text payload; `wid` models the
object's JS identity. -/
structure WhiteCard where
  wid : Nat
  text : String
  deriving DecidableEq

/-- `WhiteCard#clone` (source line 732): a fresh object with the same text. -/
def WhiteCard.clone (c : WhiteCard) (e : Eff) : WhiteCard × Eff :=
  let (i, e') := freshId e
  ({ wid := i, text := c.text }, e')

/-- One entry of a black card's `text` array: a literal string or a numeric
fill-slot marker. -/
inductive BToken where
  | str (s : String)
  | num (n : Int)
  deriving DecidableEq

/-- class BlackCard (source line 750); `bid` models JS identity. -/
structure BlackCard where
  bid : Nat
  text : List BToken
  deriving DecidableEq

/-- `BlackCard#clone` (source line 758). -/
def BlackCard.clone (c : BlackCard) (e : Eff) : BlackCard × Eff :=
  let (i, e') := freshId e
  ({ bid := i, text := c.text }, e')

/-- `[...new Set(values)]`: distinct values in first-seen order. -/
def dedupFirst (l : List Int) : List Int :=
  l.foldl (fun acc x => if x ∈ acc then acc else acc ++ [x]) []

/-- `BlackCard#getFillSpots` (source line 762): the distinct numeric slot
markers, in first-seen order. -/
def BlackCard.getFillSpots (c : BlackCard) : List Int :=
  dedupFirst (c.text.filterMap fun t => match t with | .num n => some n | .str _ => none)

/-- `BlackCard#getFillCount` (source line 768): number of distinct slots. -/
def BlackCard.getFillCount (c : BlackCard) : Nat :=
  c.getFillSpots.length

/-- JS indexing `cards[v]` on an array of `WhiteCard | null` entries: yields
the entry when `0 ≤ v < length` (which may itself be null), `undefined`
otherwise; both null and undefined are `none`. -/
def jsIndex (cards : List (Option WhiteCard)) (v : Int) : Option WhiteCard :=
  if 0 ≤ v then (cards.getD v.toNat none) else none

/-- One token of `BlackCard#getDisplay(true, ...cards)` (source line 772):
a slot marker `v` reads `cards[v]`, raises RangeError when `v` is past the
end, TypeError when the entry is not a WhiteCard; a literal passes through. -/
def fillToken (cards : List (Option WhiteCard)) : BToken → Except String String
  | .str s => pure s
  | .num v =>
    let card := jsIndex cards v
    if (cards.length : Int) - 1 < v then
      Except.error "RangeError: Too few cards given to BlackCard#getDisplay"
    else
      match card with
      | some c => pure c.text
      | none => Except.error "TypeError: Card given to BlackCard#getDisplay was not a White Card"

/-- `BlackCard#getDisplay` in fill-in mode (source lines 772-791): replace
every slot marker by the referenced card's text and join. -/
def BlackCard.getDisplayFill (c : BlackCard) (cards : List (Option WhiteCard)) :
    Except String String := do
  let parts ← c.text.mapM (fillToken cards)
  pure (String.join parts)

/-- class CardCollection (source line 811); `cid` models JS identity and
`fromCols` is the source's `from` provenance array (collection identities). -/
structure CardCollection where
  cid : Nat
  name : String
  white : List WhiteCard
  black : List BlackCard
  fromCols : List Nat
  deriving DecidableEq

/-- `CardCollection#getRandomWhiteCard(true)` (source line 835): a clone of a
uniformly drawn white card, or null when the list is empty. -/
def CardCollection.getRandomWhiteCard (c : CardCollection) (e : Eff) :
    Option WhiteCard × Eff :=
  let (i, e') := randomIndex c.white.length e
  match c.white.get? i with
  | none => (none, e')
  | some card =>
    let (card', e'') := card.clone e'
    (some card', e'')

/-- `CardCollection#getRandomBlackCard(true)` (source line 839). -/
def CardCollection.getRandomBlackCard (c : CardCollection) (e : Eff) :
    Option BlackCard × Eff :=
  let (i, e') := randomIndex c.black.length e
  match c.black.get? i with
  | none => (none, e')
  | some card =>
    let (card', e'') := card.clone e'
    (some card', e'')

/-- `CardCollection#merge` (source line 871): refuse when `col` is already in
the provenance list; otherwise append its cards and record it. -/
def CardCollection.merge (c col : CardCollection) : CardCollection × Bool :=
  if col.cid ∈ c.fromCols then (c, false)
  else
    ({ c with white := c.white ++ col.white,
              black := c.black ++ col.black,
              fromCols := c.fromCols ++ [col.cid] }, true)

/-- `CardCollection#isFrom` (source line 884). -/
def CardCollection.isFrom (c col : CardCollection) : Bool :=
  col.cid ∈ c.fromCols

/-- `Array#indexOf` over white-card identities: index of the first occurrence. -/
def idxOfWid : List WhiteCard → Nat → Option Nat
  | [], _ => none
  | x :: xs, w => if x.wid = w then some 0 else (idxOfWid xs w).map (· + 1)

/-- `Array#indexOf` over black-card identities. -/
def idxOfBid : List BlackCard → Nat → Option Nat
  | [], _ => none
  | x :: xs, b => if x.bid = b then some 0 else (idxOfBid xs b).map (· + 1)

/-- `this.white.splice(this.getWhiteCardIndex(card), 1)`: remove the first
white card with the given identity; when `indexOf` is `-1`, JS
`splice(-1, 1)` removes the LAST element. -/
def spliceOutWhite (l : List WhiteCard) (w : Nat) : List WhiteCard :=
  match idxOfWid l w with
  | some i => l.take i ++ l.drop (i + 1)
  | none => l.dropLast

/-- Black-card counterpart of `spliceOutWhite`. -/
def spliceOutBlack (l : List BlackCard) (b : Nat) : List BlackCard :=
  match idxOfBid l b with
  | some i => l.take i ++ l.drop (i + 1)
  | none => l.dropLast

/-- `CardCollection#unmerge` (source line 914): refuse unless `col` is in the
provenance (or `force`); collect, by identity, the cards of `col` present in
`c`; then splice each out (first occurrence). -/
def CardCollection.unmerge (c col : CardCollection) (force : Bool) :
    CardCollection × Bool :=
  if ¬ c.isFrom col ∧ force = false then (c, false)
  else
    let whiteFound := col.white.filter (fun w => decide (∃ x ∈ c.white, x.wid = w.wid))
    let white' := whiteFound.foldl (fun acc w => spliceOutWhite acc w.wid) c.white
    let blackFound := col.black.filter (fun b => decide (∃ x ∈ c.black, x.bid = b.bid))
    let black' := blackFound.foldl (fun acc b => spliceOutBlack acc b.bid) c.black
    ({ c with white := white', black := black' }, true)

/-- class Player (source line 655): hand, played indices, points; `pid`
models JS object identity (distinct objects get distinct tokens).  Hand
entries are `Option` because an empty deck makes `getRandomWhiteCard`
return null, which `fillCards` pushes as-is. -/
structure Player where
  pid : Nat
  id : String
  cards : List (Option WhiteCard)
  played : List Nat
  points : Nat
  deriving DecidableEq

/-- A default used only for `List.getD` at indices proved in range. -/
def defaultPlayer : Player :=
  { pid := 0, id := "", cards := [], played := [], points := 0 }

instance : Inhabited Player := ⟨defaultPlayer⟩

/-- Draw `n` white cards (clones or nulls) from the collection, appending to
the hand, threading the effect state; one draw per loop iteration of
`Player#fillCards`. -/
def drawWhites (col : CardCollection) : Nat → List (Option WhiteCard) → Eff →
    List (Option WhiteCard) × Eff
  | 0, acc, e => (acc, e)
  | n + 1, acc, e =>
    let (c, e') := col.getRandomWhiteCard e
    drawWhites col n (acc ++ [c]) e'

/-- `Player#fillCards` (source line 700): push `playerCards - cards.length`
random draws (none when the hand is already full). -/
def Player.fillCards (p : Player) (playerCards : Nat) (col : CardCollection)
    (e : Eff) : Player × Eff :=
  let difference := playerCards - p.cards.length
  let (cards', e') := drawWhites col difference p.cards e
  ({ p with cards := cards' }, e')

/-- interface GameSettings (source line 231), numeric instance. -/
structure GameSettings where
  playerCards : Nat
  winPoints : Nat
  gamePlayerCount : Nat
  deriving DecidableEq

/-- `InternalConfig.Game.defaultSettings` (source line 27). -/
def defaultSettings : GameSettings :=
  { playerCards := 10, winPoints := 10, gamePlayerCount := 6 }

/-- class Game (source line 237), data fields.  `state` is the FSM's current
state name (`none` models the pre-INIT null).  Fields that the KILLED set
hook nulls out are `Option`. -/
structure Game where
  state : Option String
  host : Option Nat
  tsar : Option Nat
  players : Option (List Player)
  cards : Option CardCollection
  blackCard : Option BlackCard
  settings : Option GameSettings
  deriving DecidableEq

/-- Read `this.players`, throwing the TypeError a null dereference raises. -/
def getPlayersE (g : Game) : Except String (List Player) :=
  match g.players with
  | some l => pure l
  | none => Except.error "TypeError: cannot read players of null"

/-- Read `this.settings`, throwing on null. -/
def getSettingsE (g : Game) : Except String GameSettings :=
  match g.settings with
  | some s => pure s
  | none => Except.error "TypeError: cannot read settings of null"

/-- Read `this.cards`, throwing on null. -/
def getCardsE (g : Game) : Except String CardCollection :=
  match g.cards with
  | some c => pure c
  | none => Except.error "TypeError: cannot read cards of null"

/-- Read `this.blackCard`, throwing on null. -/
def getBlackCardE (g : Game) : Except String BlackCard :=
  match g.blackCard with
  | some c => pure c
  | none => Except.error "TypeError: cannot read blackCard of null"

/-- The nine state names the Game constructor registers, in registration
order (INIT from the FSM constructor, then source lines 264-315). -/
def knownStates : List String :=
  ["INIT", "KILLED", "EMPTY", "WAITING", "DEALING", "PLAYING",
   "INBETWEENTURN", "TSARTURN", "ENDGAME"]

/-- Combined `to` conditions of a target state of the Game machine
(`combineBooleans (trigger name to)`); a state with no `to` hooks yields
`true`.  Evaluation can throw: after KILLED nulled `players`, the INIT /
KILLED / WAITING / PLAYING guards dereference null. -/
def toGuard (g : Game) (name : String) : Except String Bool :=
  if name = "INIT" then pure (decide (knownStates.length = 1))
  else if name = "KILLED" then do
    let l ← getPlayersE g
    pure (decide (l.length = 0))
  else if name = "EMPTY" then pure (combineBooleans [])
  else if name = "WAITING" then do
    let l ← getPlayersE g
    pure (decide (1 ≤ l.length))
  else if name = "DEALING" then
    pure (decide (g.state = some "WAITING" ∨ g.state = some "PLAYING" ∨
      g.state = some "INBETWEENTURN" ∨ g.state = some "TSARTURN"))
  else if name = "PLAYING" then do
    let l ← getPlayersE g
    pure (decide (3 ≤ l.length))
  else if name = "INBETWEENTURN" then pure (decide (g.state = some "PLAYING"))
  else if name = "TSARTURN" then pure (decide (g.state = some "INBETWEENTURN"))
  else if name = "ENDGAME" then pure (decide (g.state = some "TSARTURN"))
  else Except.error "TypeError: trigger on unknown state"

/-- Combined `from` conditions of the current state `cur` when transitioning
to `to_` (`combineBooleans (trigger cur from to_)`). -/
def fromGuard (cur to_ : String) : Except String Bool :=
  if cur = "INIT" then pure (combineBooleans [])
  else if cur = "KILLED" then pure false
  else if cur = "EMPTY" then pure (decide (to_ = "WAITING"))
  else if cur = "WAITING" then pure (combineBooleans [])
  else if cur = "DEALING" then pure (combineBooleans [])
  else if cur = "PLAYING" then
    pure (decide (to_ = "WAITING" ∨ to_ = "INBETWEENTURN"))
  else if cur = "INBETWEENTURN" then pure (decide (to_ = "TSARTURN"))
  else if cur = "TSARTURN" then pure (decide (to_ = "DEALING"))
  else if cur = "ENDGAME" then pure false
  else Except.error "TypeError: trigger on unknown state"

/-- `unset` hooks of the state being left: KILLED's throws (source line 270);
the other eight states have none. -/
def unsetHooks (cur : String) (g : Game) : Except String Game :=
  if cur = "KILLED" then
    Except.error "Error: Attempting to convert killed game object into non-killed game object, apparently."
  else if cur ∈ knownStates then pure g
  else Except.error "TypeError: trigger on unknown state"

/-- `Game#removePlayerPlayedCards` (source line 354): null out the played
hand positions, drop the null entries, clear `played`. -/
def removePlayerPlayedCards (p : Player) : Player :=
  if 0 < p.played.length then
    let nulled := p.played.foldl (fun cs i => cs.set i none) p.cards
    { p with cards := nulled.filter (·.isSome), played := [] }
  else p

/-- `Game#removePlayersPlayedCards` (source line 350). -/
def Game.removePlayersPlayedCards (g : Game) : Except String Game := do
  let l ← getPlayersE g
  pure { g with players := some (l.map removePlayerPlayedCards) }

/-- Fill each player's hand in order, threading the effect state
(`Game#fillAllPlayersCards`, source line 342, via `fillPlayersCards`). -/
def fillList (playerCards : Nat) (col : CardCollection) :
    List Player → Eff → List Player × Eff
  | [], e => ([], e)
  | p :: ps, e =>
    let (p', e') := p.fillCards playerCards col e
    let (ps', e'') := fillList playerCards col ps e'
    (p' :: ps', e'')

/-- `Game#fillAllPlayersCards` (source line 342). -/
def Game.fillAllPlayersCards (g : Game) (e : Eff) : Except String (Game × Eff) := do
  let l ← getPlayersE g
  let s ← getSettingsE g
  let col ← getCardsE g
  let (l', e') := fillList s.playerCards col l e
  pure ({ g with players := some l' }, e')

/-- `Game#chooseTsar` (source line 336): `players[randomIndex(length)]`; on an
empty list the JS access yields undefined (`none`). -/
def Game.chooseTsar (g : Game) (e : Eff) : Except String (Game × Eff) := do
  let l ← getPlayersE g
  let (i, e') := randomIndex l.length e
  pure ({ g with tsar := (l.get? i).map Player.pid }, e')

/-- `Game#chooseBlackCard` (source line 330). -/
def Game.chooseBlackCard (g : Game) (e : Eff) : Except String (Game × Eff) := do
  let col ← getCardsE g
  let (bc, e') := col.getRandomBlackCard e
  pure ({ g with blackCard := bc }, e')

/-- `trigger(name, 'set', ...)` of the Game machine, for the state just
assigned (`g2.state = some name`): KILLED nulls every owned field (source
line 267), WAITING clears every hand (line 281), DEALING deals and reenters
`setState("PLAYING")` (lines 289-296, the reentrant call abstracted as
`inner`); the other six states register no `set` hooks. -/
def setHooksRun
    (inner : Game → String → Bool → Bool → Eff → Except String (Game × Eff × Bool))
    (g2 : Game) (name : String) (e2 : Eff) :
    Except String (Game × Eff × Bool) :=
  if name = "KILLED" then
    pure ({ g2 with host := none, tsar := none, players := none,
                    cards := none, blackCard := none, settings := none },
          e2, true)
  else if name = "WAITING" then do
    let l ← getPlayersE g2
    pure ({ g2 with players := some (l.map fun p => { p with cards := [] }) },
          e2, true)
  else if name = "DEALING" then do
    let g3 ← g2.removePlayersPlayedCards
    let (g4, e4) ← g3.fillAllPlayersCards e2
    let (g5, e5) ← g4.chooseTsar e4
    let (g6, e6) ← g5.chooseBlackCard e5
    let (g7, e7, _) ← inner g6 "PLAYING" false false e6
    pure (g7, e7, true)
  else
    -- the remaining six states register no `set` hooks
    pure (g2, e2, true)

/-- The tail of `FSM#setState` (source lines 157-180) once the current
state's `from` hooks have allowed the transition: run the target's `to`
hooks (they may throw), honour their veto unless `forceFrom`, run the
current state's `unset` hooks (KILLED's throws), assign the state, and run
the target's `set` hooks.  The DEALING set hook's reentrant
`this.setState("PLAYING")` is abstracted as the `inner` argument (the
recursive call with the remaining fuel). -/
def setStateCore
    (inner : Game → String → Bool → Bool → Eff → Except String (Game × Eff × Bool))
    (g : Game) (name : String) (forceFrom : Bool) (e : Eff) :
    Except String (Game × Eff × Bool) := do
  -- the target's `to` hooks always run (may throw)
  let futureState ← toGuard g name
  if ¬ forceFrom ∧ ¬ futureState then pure (g, e, false)
  else do
    -- `unset` hooks of the current state (KILLED's throws)
    let g1 ←
      match g.state with
      | some cur => unsetHooks cur g
      | none => pure g
    let tempLastState := g1.state
    let g2 := { g1 with state := some name }
    let e2 := { e with trace := e.trace ++ [name] }
    let _ := tempLastState
    setHooksRun inner g2 name e2

/-- `FSM#setState` (source lines 137-181) specialised to the Game machine's
fixed state table.  The `forceTo` parameter is carried exactly as in the
source, whose body never reads it.  Unknown targets return `false`; the
current state's `from` hooks may veto unless `forceFrom`; the rest is
`setStateCore`, with the remaining fuel's `setState` as the reentrant
call. -/
def setState : Nat → Game → String → Bool → Bool → Eff →
    Except String (Game × Eff × Bool)
  | 0, _, _, _, _, _ => Except.error "model: out of fuel"
  | fuel + 1, g, name, forceFrom, _forceTo, e =>
    if ¬ name ∈ knownStates then
      -- console.warn + emit, then `return false`
      pure (g, e, false)
    else do
      -- `if (this.state && !forceFrom)` : the current state may veto
      let fromOk ←
        match g.state with
        | some cur =>
          if forceFrom then pure true
          else fromGuard cur name
        | none => pure true
      if ¬ fromOk then pure (g, e, false)
      else setStateCore (setState fuel) g name forceFrom e

/-- `Game#isTsar` (source line 371): reference equality with `this.tsar`,
modelled on identity tokens. -/
def Game.isTsar (g : Game) (p : Nat) : Bool :=
  g.tsar = some p

/-- `Game#getPlayingPlayers` (source line 367): the players that are not the
tsar. -/
def Game.getPlayingPlayers (g : Game) : Except String (List Player) := do
  let l ← getPlayersE g
  pure (l.filter fun p => ¬ g.isTsar p.pid)

/-- `Game#donePlaying` (source lines 436-451), verbatim: `false` outside
PLAYING; otherwise loop `i` over the FILTERED list's length but test
`this.players[i]` — the unfiltered list.  (`i` stays below the full length
because a filter is never longer than its source, so the `getD` default is
never consulted.) -/
def Game.donePlaying (g : Game) : Except String Bool := do
  if g.state ≠ some "PLAYING" then pure false
  else do
    let players ← g.getPlayingPlayers
    let bc ← getBlackCardE g
    let fillCount := bc.getFillCount
    let full ← getPlayersE g
    pure ((List.range players.length).all fun i =>
      decide ((full.getD i defaultPlayer).played.length = fillCount))

/-- `Game#isWinner` (source line 431): exact equality with `winPoints`. -/
def Game.isWinner (g : Game) (p : Player) : Except String Bool := do
  let s ← getSettingsE g
  pure (decide (p.points = s.winPoints))

/-- `Game#getWinners` (source line 427). -/
def Game.getWinners (g : Game) : Except String (List Player) := do
  let l ← getPlayersE g
  let s ← getSettingsE g
  pure (l.filter fun p => decide (p.points = s.winPoints))

/-- `Game#checkWinner` (source lines 408-424): no winner yields `false`;
otherwise a forced transition to ENDGAME and `true`. -/
def Game.checkWinner (fuel : Nat) (g : Game) (e : Eff) :
    Except String (Game × Eff × Bool) := do
  let winners ← g.getWinners
  if winners.length = 0 then pure (g, e, false)
  else do
    let (g', e', _) ← setState fuel g "ENDGAME" true true e
    pure (g', e', true)

/-- `Game#getFilledInText` (source line 453): render the active black card
with the player's played cards (`played.map(i => cards[i])`). -/
def Game.getFilledInText (g : Game) (p : Player) : Except String String := do
  let bc ← getBlackCardE g
  bc.getDisplayFill (p.played.map fun i => p.cards.getD i none)

/-- The positions (into `players`) of the non-tsar players, in order: the
shape of `getPlayingPlayers` that lets the model mutate the chosen player
through the list (JS mutates through the shared reference). -/
def Game.playingPositions (g : Game) : Except String (List Nat) := do
  let l ← getPlayersE g
  pure ((List.range l.length).filter fun i =>
    ¬ g.isTsar ((l.getD i defaultPlayer).pid))

/-- `Game#getFilledInCardsWithPlayer` (source line 465): for each non-tsar
player, the pair of the player (here: their position) and the rendered
text. -/
def Game.getFilledInCardsWithPlayer (g : Game) :
    Except String (List (Nat × String)) := do
  let l ← getPlayersE g
  let pos ← g.playingPositions
  pos.mapM fun i => do
    let t ← g.getFilledInText (l.getD i defaultPlayer)
    pure (i, t)

/-- `Game#playByCardIndex` (source lines 476-508).  The `player` argument (a
JS reference) is modelled by its position `pIdx` in `players`; calls with a
non-member reference are outside the model.  Checks in source order: state,
tsar, played-count, card existence; then push the index and, when
`donePlaying()`, chain INBETWEENTURN and TSARTURN. -/
def Game.playByCardIndex (fuel : Nat) (g : Game) (pIdx : Nat) (index : Int)
    (e : Eff) : Except String (Game × Eff × Info) := do
  if g.state ≠ some "PLAYING" then
    pure (g, e, (false, some "You cannot play a card right now."))
  else do
    let l ← getPlayersE g
    let p := l.getD pIdx defaultPlayer
    if g.isTsar p.pid then
      pure (g, e, (false, some "The Tsar cannot play a card."))
    else do
      let bc ← getBlackCardE g
      if bc.getFillCount ≤ p.played.length then
        pure (g, e, (false, some "You have already played the max amount of cards."))
      else
        -- `cards.length <= index || !(cards[index] instanceof WhiteCard)`
        if ¬ (0 ≤ index ∧ index < (p.cards.length : Int) ∧
              (jsIndex p.cards index).isSome) then
          pure (g, e, (false, some "That card does not exist."))
        else do
          let p' := { p with played := p.played ++ [index.toNat] }
          let g1 := { g with players := some (l.set pIdx p') }
          let done ← g1.donePlaying
          let (g2, e2) ←
            if done then do
              let (ga, ea, _) ← setState fuel g1 "INBETWEENTURN" false false e
              let (gb, eb, _) ← setState fuel ga "TSARTURN" false false ea
              pure (gb, eb)
            else pure (g1, e)
          -- emit "game:player:played-all-cards" when the hand is complete
          pure (g2, e2, (true, none))

/-- `Game#chooseTurnWinnerByIndex` (source lines 376-405): tsar check, state
check, compute the choices, index-range check, increment the chosen player's
points, then `checkWinner` or advance to DEALING. -/
def Game.chooseTurnWinnerByIndex (fuel : Nat) (g : Game) (tsar : Nat)
    (index : Int) (e : Eff) : Except String (Game × Eff × Info) := do
  if ¬ g.isTsar tsar then
    pure (g, e, (false, some "You cannot choose, you are not the Tsar."))
  else if g.state ≠ some "TSARTURN" then
    pure (g, e, (false, some "It is not currently the time to choose!"))
  else do
    let choices ← g.getFilledInCardsWithPlayer
    if index < 0 ∨ (choices.length : Int) - 1 < index then
      pure (g, e, (false, some "That is not a valid card."))
    else do
      let pos := (choices.getD index.toNat (0, "")).1
      let l ← getPlayersE g
      let chosen := l.getD pos defaultPlayer
      let g1 := { g with players := some (l.set pos { chosen with points := chosen.points + 1 }) }
      let (g2, e2, won) ← g1.checkWinner fuel e
      if ¬ won then do
        let (g3, e3, _) ← setState fuel g2 "DEALING" false false e2
        pure (g3, e3, (true, none))
      else
        pure (g2, e2, (true, none))

/-- `Game#kill` (source line 511): forced transition to KILLED. -/
def Game.kill (fuel : Nat) (g : Game) (e : Eff) :
    Except String (Game × Eff × Bool) :=
  setState fuel g "KILLED" true true e

/-- `Game#start` (source lines 516-524): domain error unless WAITING, else
trigger DEALING. -/
def Game.start (fuel : Nat) (g : Game) (e : Eff) :
    Except String (Game × Eff × Info) := do
  if g.state ≠ some "WAITING" then
    pure (g, e, (false, some "The game is not currently waiting to be started."))
  else do
    let (g1, e1, _) ← setState fuel g "DEALING" false false e
    pure (g1, e1, (true, none))

/-- `Game#getPlayerCount` / `Game#hasPlayers` (source lines 584-590). -/
def Game.hasPlayers (g : Game) : Except String Bool := do
  let l ← getPlayersE g
  pure (decide (0 < l.length))

/-- `Game#hasHost` (source line 592): `host !== null && players.includes(host)`
(short-circuit: a null host never dereferences `players`). -/
def Game.hasHost (g : Game) : Except String Bool :=
  match g.host with
  | none => pure false
  | some h => do
    let l ← getPlayersE g
    pure (decide (∃ q ∈ l, q.pid = h))

/-- `Game#setHostByIndex` (source line 600): set the host when `players[index]`
is a Player. -/
def Game.setHostByIndex (g : Game) (index : Nat) : Except String (Game × Bool) := do
  let l ← getPlayersE g
  match l.get? index with
  | some p => pure ({ g with host := some p.pid }, true)
  | none => pure (g, false)

/-- `Game#findHost` (source lines 611-628): when the host is absent, kill an
empty game or elect `players[0]`. -/
def Game.findHost (fuel : Nat) (g : Game) (e : Eff) :
    Except String (Game × Eff × Bool) := do
  let hh ← g.hasHost
  if ¬ hh then do
    let hp ← g.hasPlayers
    if ¬ hp then do
      let (g', e', _) ← g.kill fuel e
      pure (g', e', false)
    else do
      let (g', _) ← g.setHostByIndex 0
      pure (g', e, true)
  else pure (g, e, false)

/-- `Game#addPlayer` (source lines 527-546): capacity check, push, re-find
host, auto EMPTY→WAITING, and deal a hand to a late joiner. -/
def Game.addPlayer (fuel : Nat) (g : Game) (p : Player) (e : Eff) :
    Except String (Game × Eff × Info) := do
  let l ← getPlayersE g
  let s ← getSettingsE g
  if s.gamePlayerCount ≤ l.length then
    pure (g, e, (false, some "There is already too many players."))
  else do
    let g1 := { g with players := some (l ++ [p]) }
    let (g2, e2, _) ← g1.findHost fuel e
    let (g3, e3) ←
      if g2.state = some "EMPTY" then do
        let (ga, ea, _) ← setState fuel g2 "WAITING" false false e2
        pure (ga, ea)
      else pure (g2, e2)
    if g3.state ≠ some "WAITING" ∧ g3.state ≠ some "EMPTY" then do
      let l3 ← getPlayersE g3
      let s3 ← getSettingsE g3
      let col3 ← getCardsE g3
      match l3.getLast? with
      | some lastP =>
        let (lastP', e4) := lastP.fillCards s3.playerCards col3 e3
        pure ({ g3 with players := some (l3.dropLast ++ [lastP']) }, e4, (true, none))
      | none => Except.error "TypeError: players[length - 1] is undefined"
    else
      pure (g3, e3, (true, none))

/-- `Game#removePlayerByIndex` (source lines 553-582).  The index is a JS
number: `-1` is rejected, any other index below `players.length` proceeds —
including other negative values, for which `players[index]` is undefined and
`splice(index, 1)` counts from the end (`max(length + index, 0)`). -/
def Game.removePlayerByIndex (fuel : Nat) (g : Game) (index : Int) (e : Eff) :
    Except String (Game × Eff × Info) := do
  if index = -1 then
    pure (g, e, (false, some "I cannot find that player..."))
  else do
    let l ← getPlayersE g
    if index < (l.length : Int) then do
      let removed : Option Nat :=
        if 0 ≤ index then (l.get? index.toNat).map Player.pid else none
      let start : Nat :=
        if 0 ≤ index then index.toNat else l.length - (-index).toNat
      let l1 := l.take start ++ l.drop (start + 1)
      let g1 := { g with players := some l1 }
      let hostMatches : Bool :=
        match g.host, removed with
        | some h, some r => decide (h = r)
        | _, _ => false
      let (g2, e2) ←
        if hostMatches then do
          let (ga, ea, _) ← Game.findHost fuel { g1 with host := none } e
          pure (ga, ea)
        else pure (g1, e)
      let (g3, e3) ←
        if g2.state = some "PLAYING" then do
          let (ga, ea, _) ← setState fuel g2 "WAITING" false false e2
          pure (ga, ea)
        else pure (g2, e2)
      pure (g3, e3, (true, some "Removed Played"))
    else
      pure (g, e, (false, some "I cannot find that player."))

/-- `game.cards.merge(col)` as the test driver invokes it: merge a deck into
the game's owned collection. -/
def Game.mergeCards (g : Game) (col : CardCollection) :
    Except String (Game × Bool) := do
  let c ← getCardsE g
  let (c', b) := c.merge col
  pure ({ g with cards := some c' }, b)

/-- `Game#resetSettings` (source line 318): restore the default settings. -/
def Game.resetSettings (g : Game) : Game :=
  { g with settings := some defaultSettings }

/-- `new Game()` (constructor, source lines 251-316, after the FSM
constructor set the INIT state): empty player list, a fresh empty owned
collection, null host / tsar / blackCard, default settings. -/
def Game.new (e : Eff) : Game × Eff :=
  let (cid, e') := freshId e
  ({ state := some "INIT", host := none, tsar := none, players := some [],
     cards := some { cid := cid, name := "<Unnamed>", white := [], black := [],
                     fromCols := [] },
     blackCard := none, settings := some defaultSettings }, e')

/-- `Game.create(host)` (source line 630): new game, add the host, move to
WAITING. -/
def Game.create (fuel : Nat) (p : Player) (e : Eff) :
    Except String (Game × Eff) := do
  let (g0, e0) := Game.new e
  let (g1, e1, _) ← g0.addPlayer fuel p e0
  let (g2, e2, _) ← setState fuel g1 "WAITING" false false e1
  pure (g2, e2)

/-!
The generic FSM class (source lines 110-229).  A guard or hook is an
arbitrary transformer of the machine's mutable data — the current state name
plus a world `W` for everything a callback's closure can reach — returning
`boolean | void` (`Option Bool`).  `trigger` runs every callback of a kind
in registration order, threading mutations and collecting results.
-/

/-- interface State (source line 70): the four ordered callback lists. -/
structure FsmState (W : Type) where
  toL : List ((Option String × W) → ((Option String × W) × Option Bool))
  fromL : List ((Option String × W) → String → ((Option String × W) × Option Bool))
  setL : List ((Option String × W) → Option String → ((Option String × W) × Option Bool))
  unsetL : List ((Option String × W) → String → ((Option String × W) × Option Bool))

/-- class FSM (source line 110): registered states and the current state
name. -/
structure Fsm (W : Type) where
  states : List (String × FsmState W)
  state : Option String
  world : W

/-- `FSM#findState` (source line 226). -/
def Fsm.findState {W : Type} (m : Fsm W) (name : String) : Option (FsmState W) :=
  (m.states.find? fun s => s.1 = name).map Prod.snd

/-- `FSM#hasState` (source line 130). -/
def Fsm.hasState {W : Type} (m : Fsm W) (name : String) : Bool :=
  (m.findState name).isSome

/-- `trigger` for no-extra-argument callbacks (`to` hooks): run each in
order, threading the mutable data, collecting the results. -/
def runHooks0 {W : Type}
    (hooks : List ((Option String × W) → ((Option String × W) × Option Bool)))
    (sw : Option String × W) : (Option String × W) × List (Option Bool) :=
  hooks.foldl
    (fun acc f =>
      let (sw', r) := f acc.1
      (sw', acc.2 ++ [r]))
    (sw, [])

/-- `trigger` for callbacks taking one extra string (`from` / `unset`). -/
def runHooksS {W : Type}
    (hooks : List ((Option String × W) → String → ((Option String × W) × Option Bool)))
    (sw : Option String × W) (arg : String) :
    (Option String × W) × List (Option Bool) :=
  hooks.foldl
    (fun acc f =>
      let (sw', r) := f acc.1 arg
      (sw', acc.2 ++ [r]))
    (sw, [])

/-- `trigger` for `set` hooks (extra argument: the possibly-null previous
state name). -/
def runHooksO {W : Type}
    (hooks : List ((Option String × W) → Option String → ((Option String × W) × Option Bool)))
    (sw : Option String × W) (arg : Option String) :
    (Option String × W) × List (Option Bool) :=
  hooks.foldl
    (fun acc f =>
      let (sw', r) := f acc.1 arg
      (sw', acc.2 ++ [r]))
    (sw, [])

/-- `FSM#setState` (source lines 137-181), verbatim over the generic state
table.  The third parameter is the source's `forceTo`, which the body never
reads.  Order of business: unknown target returns `false`; the current
state's `from` hooks may veto (unless `forceFrom`); the target's `to` hooks
always run but their veto is ignored when `forceFrom`; the current state's
`unset` hooks run; the state is reassigned; the target's `set` hooks run.
`trigger` on a state name that is missing from the table throws. -/
def Fsm.setState {W : Type} (m : Fsm W) (name : String)
    (forceFrom forceTo : Bool) : Except String (Fsm W × Bool) :=
  if ¬ m.hasState name then Except.ok (m, false)
  else do
    let (sw1, fromOk) ←
      match m.state with
      | some cur =>
        if forceFrom then pure ((m.state, m.world), true)
        else
          match m.findState cur with
          | some st =>
            let (sw, rs) := runHooksS st.fromL (m.state, m.world) name
            pure (sw, combineBooleans rs)
          | none => Except.error "TypeError: trigger on unknown state"
      | none => pure ((m.state, m.world), true)
    if ¬ fromOk then pure ({ m with state := sw1.1, world := sw1.2 }, false)
    else do
      let st2 ←
        match m.findState name with
        | some st => pure st
        | none => Except.error "TypeError: trigger on unknown state"
      let (sw2, toRs) := runHooks0 st2.toL sw1
      let futureState := combineBooleans toRs
      if ¬ forceFrom ∧ ¬ futureState then
        pure ({ m with state := sw2.1, world := sw2.2 }, false)
      else do
        let sw3 ←
          match sw2.1 with
          | some cur2 =>
            match m.findState cur2 with
            | some stc => pure (runHooksS stc.unsetL sw2 name).1
            | none => Except.error "TypeError: trigger on unknown state"
          | none => pure sw2
        let tempLastState := sw3.1
        let sw4 : Option String × W := (some name, sw3.2)
        let (sw5, _) := runHooksO st2.setL sw4 tempLastState
        pure ({ m with state := sw5.1, world := sw5.2 }, true)

/-- Fuel given to the public operations in concrete runs: the deepest chain
(`DEALING`'s set hook reentering `setState`) uses two levels. -/
def gFuel : Nat := 9

/-- The added player is a fresh object: its identity token differs from every
player already in the list.  (Adding the very same object twice would make
two list entries alias one JS object, which a list-of-values model cannot
represent; such calls are outside the model.) -/
def freshPid (g : Game) (p : Player) : Prop :=
  ∀ l, g.players = some l → ∀ q ∈ l, q.pid ≠ p.pid

/-- Game states reachable through the public mutating API from
`Game.create`, with arbitrary randomness and arguments; only non-throwing
executions produce successor states. -/
inductive Reach : Game → Prop
  | created (fuel : Nat) (p : Player) (e : Eff) (g : Game) (e' : Eff) :
      Game.create fuel p e = Except.ok (g, e') → Reach g
  | addP (g : Game) (fuel : Nat) (p : Player) (e : Eff) (g' : Game) (e' : Eff)
      (r : Info) : Reach g → freshPid g p →
      Game.addPlayer fuel g p e = Except.ok (g', e', r) → Reach g'
  | removeP (g : Game) (fuel : Nat) (index : Int) (e : Eff) (g' : Game)
      (e' : Eff) (r : Info) : Reach g →
      Game.removePlayerByIndex fuel g index e = Except.ok (g', e', r) → Reach g'
  | startP (g : Game) (fuel : Nat) (e : Eff) (g' : Game) (e' : Eff) (r : Info) :
      Reach g → Game.start fuel g e = Except.ok (g', e', r) → Reach g'
  | playP (g : Game) (fuel : Nat) (pIdx : Nat) (index : Int) (e : Eff)
      (g' : Game) (e' : Eff) (r : Info) : Reach g →
      Game.playByCardIndex fuel g pIdx index e = Except.ok (g', e', r) → Reach g'
  | chooseP (g : Game) (fuel : Nat) (tsar : Nat) (index : Int) (e : Eff)
      (g' : Game) (e' : Eff) (r : Info) : Reach g →
      Game.chooseTurnWinnerByIndex fuel g tsar index e = Except.ok (g', e', r) →
      Reach g'
  | killP (g : Game) (fuel : Nat) (e : Eff) (g' : Game) (e' : Eff) (b : Bool) :
      Reach g → Game.kill fuel g e = Except.ok (g', e', b) → Reach g'
  | mergeP (g : Game) (col : CardCollection) (g' : Game) (b : Bool) :
      Reach g → Game.mergeCards g col = Except.ok (g', b) → Reach g'
  | setHostP (g : Game) (index : Nat) (g' : Game) (b : Bool) :
      Reach g → Game.setHostByIndex g index = Except.ok (g', b) → Reach g'
  | resetP (g : Game) : Reach g → Reach g.resetSettings

/-!  Derived observations used in theorem statements.  -/

/-- Number of players (length of the player list), when the list exists. -/
def plen (g : Game) : Option Nat :=
  g.players.map List.length

/-- The players' point totals, in list order. -/
def pointsOf (g : Game) : Option (List Nat) :=
  g.players.map fun l => l.map Player.points

/-- The players' identity tokens, in list order. -/
def pidsOf (g : Game) : Option (List Nat) :=
  g.players.map fun l => l.map Player.pid

/-- The invariant behind claim C9: whenever the machine is in PLAYING, the
player list exists and has at least three entries (PLAYING's `to` guard). -/
def playingInv (g : Game) : Prop :=
  g.state = some "PLAYING" → ∃ k, plen g = some k ∧ 3 ≤ k

/-!  Concrete example data for the counterexample / witness runs.  -/

/-- An effect state with no pending random numbers: every `randomIndex`
yields `0` (JS: every `Math.random()` draw happened to fall in the first
bucket). -/
def exEff : Eff := { rand := [], fresh := 1000, trace := [] }

/-- Example players (fresh identities 1, 2, 3). -/
def exA : Player := { pid := 1, id := "A", cards := [], played := [], points := 0 }

/-- Second example player. -/
def exB : Player := { pid := 2, id := "B", cards := [], played := [], points := 0 }

/-- Third example player. -/
def exC : Player := { pid := 3, id := "C", cards := [], played := [], points := 0 }

/-- Placeholder game used as the default of the `Except` projections below;
the accompanying theorems prove the projected runs are `ok`, so it is never
the value actually reached. -/
def exErrGame : Game :=
  { state := none, host := none, tsar := none, players := none, cards := none,
    blackCard := none, settings := none }

/-- Project an `ok` run to its game and effect state. -/
def getOk2 (x : Except String (Game × Eff)) : Game × Eff :=
  match x with
  | .ok v => v
  | .error _ => (exErrGame, exEff)

/-- Project an `ok` operation result to its game and effect state. -/
def getOk3 (x : Except String (Game × Eff × Info)) : Game × Eff :=
  match x with
  | .ok (g, e, _) => (g, e)
  | .error _ => (exErrGame, exEff)

/-- A one-player game fresh out of `Game.create` (state WAITING). -/
def exCreated : Game × Eff := getOk2 (Game.create gFuel exA exEff)

/-- Project an `ok` merge result to its game. -/
def getOkM (x : Except String (Game × Bool)) : Game :=
  match x with
  | .ok (g, _) => g
  | .error _ => exErrGame

/-- `exCreated` plus player B. -/
def exTwo : Game × Eff := getOk3 (Game.addPlayer gFuel exCreated.1 exB exCreated.2)

/-- Three players, still WAITING, empty deck. -/
def exThree : Game × Eff := getOk3 (Game.addPlayer gFuel exTwo.1 exC exTwo.2)

/-- The three-player game started with an EMPTY deck: the DEALING hook deals
null hands and a null black card, then reaches PLAYING. -/
def exStartedEmptyDeck : Game × Eff := getOk3 (Game.start gFuel exThree.1 exThree.2)

/-- A white card template for the example decks. -/
def exWhite : WhiteCard := { wid := 500, text := "cheese" }

/-- A black card with two distinct slots. -/
def exBlack2 : BlackCard :=
  { bid := 600, text := [.str "I like ", .num 0, .str " and ", .num 1] }

/-- A black card with one slot. -/
def exBlack1 : BlackCard := { bid := 601, text := [.str "I like ", .num 0] }

/-- A deck with one white card and the two-slot black card. -/
def exDeck2 : CardCollection :=
  { cid := 100, name := "T", white := [exWhite], black := [exBlack2], fromCols := [] }

/-- The three-player game with `exDeck2` merged into its owned collection. -/
def exMerged : Game := getOkM (Game.mergeCards exThree.1 exDeck2)

/-- The three-player game with `exDeck2` merged and started: state PLAYING,
tsar is player 1 (`pid 1`), active black card has fill count 2. -/
def exPlaying2 : Game × Eff := getOk3 (Game.start gFuel exMerged exThree.2)

/-- `exPlaying2` after player at position 1 (`pid 2`) played hand index 0
once. -/
def exPlayedOnce : Game × Eff :=
  getOk3 (Game.playByCardIndex gFuel exPlaying2.1 1 0 exPlaying2.2)

/-- `exPlayedOnce` after the same player plays the same hand index again. -/
def exPlayedTwice : Game × Eff :=
  getOk3 (Game.playByCardIndex gFuel exPlayedOnce.1 1 0 exPlayedOnce.2)

/-- The one-player WAITING game after `start()`. -/
def exStart1 : Game × Eff := getOk3 (Game.start gFuel exCreated.1 exCreated.2)

/-- The three-player WAITING game after `removePlayerByIndex(-2)`. -/
def exRemNeg : Game × Eff :=
  getOk3 (Game.removePlayerByIndex gFuel exThree.1 (-2) exThree.2)

/-- The claim C1 failing input: state PLAYING, the tsar is `players[0]`, the
black card has one distinct slot, and both non-tsar players have submitted
exactly one index. -/
def exDoneGame : Game :=
  { state := some "PLAYING", host := some 1, tsar := some 1,
    players := some [exA,
      { exB with cards := [some exWhite], played := [0] },
      { exC with cards := [some exWhite], played := [0] }],
    cards := some { cid := 9, name := "d", white := [], black := [], fromCols := [] },
    blackCard := some exBlack1, settings := some defaultSettings }

/-- Claim C8 data: a collection already holding `w0` and `y1`. -/
def w0 : WhiteCard := { wid := 0, text := "w" }

/-- Second card of the C8 example. -/
def y1 : WhiteCard := { wid := 1, text := "y" }

/-- C8 target collection: white cards `[w0, y1]`. -/
def colA : CardCollection :=
  { cid := 10, name := "a", white := [w0, y1], black := [], fromCols := [] }

/-- C8 merged-in collection: it contains (an alias of) `w0`, which `colA`
already holds. -/
def colB : CardCollection :=
  { cid := 11, name := "b", white := [w0], black := [], fromCols := [] }

/-- Claim C2 deck: one white card and the one-slot black card. -/
def exTsarDeck : CardCollection :=
  { cid := 20, name := "d", white := [exWhite], black := [exBlack1], fromCols := [] }

/-- Claim C2 input: a TSARTURN game whose tsar is `players[2]` (pid 3), both
non-tsar players having submitted the one required index. -/
def exTsarGame : Game :=
  { state := some "TSARTURN", host := some 1, tsar := some 3,
    players := some [
      { pid := 1, id := "A", cards := [some exWhite], played := [0], points := 0 },
      { pid := 2, id := "B", cards := [some exWhite], played := [0], points := 0 },
      { pid := 3, id := "C", cards := [], played := [], points := 0 }],
    cards := some exTsarDeck, blackCard := some exBlack1,
    settings := some defaultSettings }

/-- `exTsarGame` after the tsar chooses the first filled-in entry. -/
def exChosen : Game × Eff := getOk3 (Game.chooseTurnWinnerByIndex gFuel exTsarGame 3 0 exEff)

/-- The three-player game after `kill()`. -/
def exKilled : Game × Eff :=
  match Game.kill gFuel exThree.1 exThree.2 with
  | .ok (g, e, _) => (g, e)
  | .error _ => (exErrGame, exEff)

/-- The started three-player game after `removePlayerByIndex(0)` (the host):
a new host is elected and the state drops back to WAITING. -/
def exRemPlay : Game × Eff := getOk3 (Game.removePlayerByIndex gFuel exPlaying2.1 0 exPlaying2.2)

/-!  ## Theorems

General helper lemmas first, then one theorem per claim (with its witness
where the statement carries hypotheses).
-/

theorem ok_bind {α β : Type} (a : α) (f : α → Except String β) :
    (Except.ok a >>= f) = f a := rfl

theorem error_bind {α β : Type} (s : String) (f : α → Except String β) :
    (Except.error s >>= f : Except String β) = Except.error s := rfl

theorem freshPid_intro {g : Game} {p : Player} {ps : List Nat}
    (hps : pidsOf g = some ps) (hnot : ¬ p.pid ∈ ps) : freshPid g p := by
  intro l hl q hq hcontra
  apply hnot
  have hps' : ps = l.map Player.pid := by
    simp only [pidsOf, hl, Option.map_some'] at hps
    exact (Option.some.inj hps).symm
  subst hps'
  rw [← hcontra]
  exact List.mem_map_of_mem Player.pid hq

/-- Reachability of the concrete example games. -/
theorem reach_exCreated : Reach exCreated.1 :=
  Reach.created gFuel exA exEff exCreated.1 exCreated.2 (by decide)

theorem reach_exTwo : Reach exTwo.1 :=
  Reach.addP exCreated.1 gFuel exB exCreated.2 exTwo.1 exTwo.2 (true, none)
    reach_exCreated (@freshPid_intro exCreated.1 exB [1] (by decide) (by decide)) (by decide)

theorem reach_exThree : Reach exThree.1 :=
  Reach.addP exTwo.1 gFuel exC exTwo.2 exThree.1 exThree.2 (true, none)
    reach_exTwo (@freshPid_intro exTwo.1 exC [1, 2] (by decide) (by decide)) (by decide)

theorem reach_exMerged : Reach exMerged :=
  Reach.mergeP exThree.1 exDeck2 exMerged true reach_exThree (by decide)

theorem reach_exPlaying2 : Reach exPlaying2.1 :=
  Reach.startP exMerged gFuel exThree.2 exPlaying2.1 exPlaying2.2 (true, none)
    reach_exMerged (by decide)

theorem reach_exPlayedOnce : Reach exPlayedOnce.1 :=
  Reach.playP exPlaying2.1 gFuel 1 0 exPlaying2.2 exPlayedOnce.1 exPlayedOnce.2
    (true, none) reach_exPlaying2 (by decide)

theorem reach_exStartedEmptyDeck : Reach exStartedEmptyDeck.1 :=
  Reach.startP exThree.1 gFuel exThree.2 exStartedEmptyDeck.1
    exStartedEmptyDeck.2 (true, none) reach_exThree (by decide)

theorem pure_eq_ok {α : Type} (a : α) : (pure a : Except String α) = Except.ok a := rfl

theorem getPlayersE_ok {g : Game} {l : List Player} :
    getPlayersE g = Except.ok l ↔ g.players = some l := by
  unfold getPlayersE
  cases g.players <;> simp [pure_eq_ok]

theorem getPlayersE_some {g : Game} {l : List Player} (h : g.players = some l) :
    getPlayersE g = Except.ok l := by
  simp [getPlayersE, h, pure_eq_ok]

theorem getSettingsE_some {g : Game} {s : GameSettings} (h : g.settings = some s) :
    getSettingsE g = Except.ok s := by
  simp [getSettingsE, h, pure_eq_ok]

theorem getCardsE_some {g : Game} {c : CardCollection} (h : g.cards = some c) :
    getCardsE g = Except.ok c := by
  simp [getCardsE, h, pure_eq_ok]

theorem getBlackCardE_some {g : Game} {c : BlackCard} (h : g.blackCard = some c) :
    getBlackCardE g = Except.ok c := by
  simp [getBlackCardE, h, pure_eq_ok]

theorem toGuard_INIT (g : Game) : toGuard g "INIT" = Except.ok false := by
  simp [toGuard, knownStates, pure_eq_ok]

theorem toGuard_EMPTY (g : Game) : toGuard g "EMPTY" = Except.ok true := by
  simp [toGuard, combineBooleans, pure_eq_ok]

theorem toGuard_DEALING (g : Game) :
    toGuard g "DEALING" = Except.ok (decide (g.state = some "WAITING" ∨
      g.state = some "PLAYING" ∨ g.state = some "INBETWEENTURN" ∨
      g.state = some "TSARTURN")) := by
  simp [toGuard, pure_eq_ok]

theorem toGuard_INBETWEENTURN (g : Game) :
    toGuard g "INBETWEENTURN" = Except.ok (decide (g.state = some "PLAYING")) := by
  simp [toGuard, pure_eq_ok]

theorem toGuard_TSARTURN (g : Game) :
    toGuard g "TSARTURN" = Except.ok (decide (g.state = some "INBETWEENTURN")) := by
  simp [toGuard, pure_eq_ok]

theorem toGuard_ENDGAME (g : Game) :
    toGuard g "ENDGAME" = Except.ok (decide (g.state = some "TSARTURN")) := by
  simp [toGuard, pure_eq_ok]

theorem toGuard_KILLED_some {g : Game} {l : List Player} (h : g.players = some l) :
    toGuard g "KILLED" = Except.ok (decide (l.length = 0)) := by
  simp [toGuard, getPlayersE, h, pure_eq_ok, ok_bind, error_bind]

theorem toGuard_KILLED_none (g : Game) (h : g.players = none) :
    toGuard g "KILLED" = Except.error "TypeError: cannot read players of null" := by
  simp [toGuard, getPlayersE, h, pure_eq_ok, ok_bind, error_bind]

theorem toGuard_WAITING_some {g : Game} {l : List Player} (h : g.players = some l) :
    toGuard g "WAITING" = Except.ok (decide (1 ≤ l.length)) := by
  simp [toGuard, getPlayersE, h, pure_eq_ok, ok_bind, error_bind]

theorem toGuard_WAITING_none (g : Game) (h : g.players = none) :
    toGuard g "WAITING" = Except.error "TypeError: cannot read players of null" := by
  simp [toGuard, getPlayersE, h, pure_eq_ok, ok_bind, error_bind]

theorem toGuard_PLAYING_some {g : Game} {l : List Player} (h : g.players = some l) :
    toGuard g "PLAYING" = Except.ok (decide (3 ≤ l.length)) := by
  simp [toGuard, getPlayersE, h, pure_eq_ok, ok_bind, error_bind]

theorem toGuard_PLAYING_none (g : Game) (h : g.players = none) :
    toGuard g "PLAYING" = Except.error "TypeError: cannot read players of null" := by
  simp [toGuard, getPlayersE, h, pure_eq_ok, ok_bind, error_bind]

theorem map_ok {α β : Type} (f : α → β) (a : α) :
    (f <$> (Except.ok a : Except String α)) = Except.ok (f a) := rfl

theorem map_error {α β : Type} (f : α → β) (s : String) :
    (f <$> (Except.error s : Except String α) : Except String β) = Except.error s := rfl

theorem unsetHooks_ok {cur : String} {g g' : Game}
    (h : unsetHooks cur g = Except.ok g') : g' = g := by
  unfold unsetHooks at h
  split_ifs at h
  all_goals
    first
      | exact Except.noConfusion h
      | (simp only [pure_eq_ok] at h
         exact (Except.ok.inj h).symm)

theorem unsetHooks_KILLED (g : Game) :
    unsetHooks "KILLED" g
      = Except.error "Error: Attempting to convert killed game object into non-killed game object, apparently." := by
  simp [unsetHooks]

theorem removePlayersPlayedCards_ok {g g' : Game}
    (h : g.removePlayersPlayedCards = Except.ok g') :
    ∃ l, g.players = some l ∧
      g' = { g with players := some (l.map removePlayerPlayedCards) } := by
  unfold Game.removePlayersPlayedCards at h
  cases hp : g.players with
  | none => rw [getPlayersE] at h; rw [hp] at h; simp at h
  | some l =>
    rw [getPlayersE] at h; rw [hp] at h
    simp only [ok_bind, pure_eq_ok] at h
    exact ⟨l, rfl, (Except.ok.inj h).symm⟩

theorem fillList_length (pc : Nat) (col : CardCollection) :
    ∀ (l : List Player) (e : Eff), ((fillList pc col l e).1).length = l.length := by
  intro l
  induction l with
  | nil => intro e; simp [fillList]
  | cons p ps ihl =>
    intro e
    simp only [fillList]
    simp [ihl]

theorem fillList_pids (pc : Nat) (col : CardCollection) :
    ∀ (l : List Player) (e : Eff),
      ((fillList pc col l e).1).map Player.pid = l.map Player.pid := by
  intro l
  induction l with
  | nil => intro e; simp [fillList]
  | cons p ps ihl =>
    intro e
    simp only [fillList]
    simp [ihl, Player.fillCards]

theorem fillList_points (pc : Nat) (col : CardCollection) :
    ∀ (l : List Player) (e : Eff),
      ((fillList pc col l e).1).map Player.points = l.map Player.points := by
  intro l
  induction l with
  | nil => intro e; simp [fillList]
  | cons p ps ihl =>
    intro e
    simp only [fillList]
    simp [ihl, Player.fillCards]

theorem fillList_played (pc : Nat) (col : CardCollection) :
    ∀ (l : List Player) (e : Eff),
      ((fillList pc col l e).1).map Player.played = l.map Player.played := by
  intro l
  induction l with
  | nil => intro e; simp [fillList]
  | cons p ps ihl =>
    intro e
    simp only [fillList]
    simp [ihl, Player.fillCards]

theorem fillAllPlayersCards_ok {g : Game} {e : Eff} {g' : Game} {e' : Eff}
    (h : g.fillAllPlayersCards e = Except.ok (g', e')) :
    ∃ l s c, g.players = some l ∧ g.settings = some s ∧ g.cards = some c ∧
      g' = { g with players := some (fillList s.playerCards c l e).1 } ∧
      e' = (fillList s.playerCards c l e).2 := by
  unfold Game.fillAllPlayersCards at h
  cases hp : g.players with
  | none =>
    rw [getPlayersE] at h; rw [hp] at h
    simp only [error_bind] at h
    exact Except.noConfusion h
  | some l =>
  cases hs : g.settings with
  | none =>
    rw [getPlayersE, getSettingsE] at h; rw [hp, hs] at h
    simp only [ok_bind, error_bind] at h
    exact Except.noConfusion h
  | some s =>
  cases hc : g.cards with
  | none =>
    rw [getPlayersE, getSettingsE, getCardsE] at h; rw [hp, hs, hc] at h
    simp only [ok_bind, map_error] at h
    exact Except.noConfusion h
  | some c =>
    rw [getPlayersE, getSettingsE, getCardsE] at h; rw [hp, hs, hc] at h
    simp only [ok_bind, map_ok, pure_eq_ok] at h
    refine ⟨l, s, c, rfl, rfl, rfl, ?_, ?_⟩
    · have h2 := (Except.ok.inj h)
      exact (congrArg Prod.fst h2).symm
    · have h2 := (Except.ok.inj h)
      exact (congrArg Prod.snd h2).symm

theorem chooseTsar_ok {g : Game} {e : Eff} {g' : Game} {e' : Eff}
    (h : g.chooseTsar e = Except.ok (g', e')) :
    ∃ l, g.players = some l ∧
      g' = { g with tsar := (l.get? (randomIndex l.length e).1).map Player.pid } ∧
      e' = (randomIndex l.length e).2 := by
  unfold Game.chooseTsar at h
  cases hp : g.players with
  | none => rw [getPlayersE] at h; rw [hp] at h; simp at h
  | some l =>
    rw [getPlayersE] at h; rw [hp] at h
    simp only [ok_bind, pure_eq_ok] at h
    have h2 := Except.ok.inj h
    exact ⟨l, rfl, (congrArg Prod.fst h2).symm, (congrArg Prod.snd h2).symm⟩

theorem chooseBlackCard_ok {g : Game} {e : Eff} {g' : Game} {e' : Eff}
    (h : g.chooseBlackCard e = Except.ok (g', e')) :
    ∃ c, g.cards = some c ∧
      g' = { g with blackCard := (c.getRandomBlackCard e).1 } ∧
      e' = (c.getRandomBlackCard e).2 := by
  unfold Game.chooseBlackCard at h
  cases hc : g.cards with
  | none => rw [getCardsE] at h; rw [hc] at h; simp at h
  | some c =>
    rw [getCardsE] at h; rw [hc] at h
    simp only [ok_bind, pure_eq_ok] at h
    have h2 := Except.ok.inj h
    exact ⟨c, rfl, (congrArg Prod.fst h2).symm, (congrArg Prod.snd h2).symm⟩

/-- C4: the `forceTo` argument of `FSM#setState` is never consulted — for
every world type, machine, target name and `forceFrom` value, calling with
`forceTo = true` and with `forceTo = false` gives identical results (same
success boolean, same machine), while `forceFrom` alone controls whether the
target's `to`-guard outcome is skipped (the `if (!forceFrom && !futureState)`
test). -/
theorem c4_forceTo_never_consulted :
    ∀ (W : Type) (m : Fsm W) (name : String) (forceFrom : Bool),
      m.setState name forceFrom true = m.setState name forceFrom false :=
  fun _ _ _ _ => rfl

/-- C1 (failing input): in `exDoneGame` the state is PLAYING, the black card
has exactly one distinct slot, and every non-tsar player has submitted
exactly one index — the claim (and the spec) say `donePlaying()` is `true` —
yet the code returns `false`, because its loop tests `this.players[i]` (the
full list, whose first entry is the tsar with an empty `played`) instead of
the filtered non-tsar list it just computed. -/
theorem c1_donePlaying_checks_wrong_list :
    Game.donePlaying exDoneGame = Except.ok false ∧
    exDoneGame.state = some "PLAYING" ∧
    exDoneGame.tsar = some 1 ∧
    exDoneGame.blackCard = some exBlack1 ∧ exBlack1.getFillCount = 1 ∧
    Game.getPlayingPlayers exDoneGame =
      Except.ok [{ exB with cards := [some exWhite], played := [0] },
                 { exC with cards := [some exWhite], played := [0] }] := by
  decide

/-- C5 (failing input): on the reachable three-player WAITING game,
`removePlayerByIndex(-2)` — an index outside `0..players.length-1` that the
claim says must be a domain error leaving the list unchanged — succeeds and
removes the middle player: JS `splice(-2, 1)` counts from the end, as the
code's own TODO comment admits ("it would allow indexes less than 0 that are
not -1 in"). -/
theorem c5_negative_index_removes_player :
    Reach exThree.1 ∧
    pidsOf exThree.1 = some [1, 2, 3] ∧
    Game.removePlayerByIndex gFuel exThree.1 (-2) exThree.2
      = Except.ok (exRemNeg.1, exRemNeg.2, (true, some "Removed Played")) ∧
    pidsOf exRemNeg.1 = some [1, 3] :=
  ⟨reach_exThree, by decide, by decide, by decide⟩

/-- C3 (counterexample): on the reachable one-player WAITING game produced by
`Game.create`, `start()` succeeds (returns the success flag `true`) but the
game ends in DEALING, not PLAYING: the DEALING set hook's chained
`setState("PLAYING")` is an unforced call and PLAYING's `to` guard
(`players.length >= 3`) refuses it. -/
theorem c3_start_can_end_in_dealing :
    Reach exCreated.1 ∧ exCreated.1.state = some "WAITING" ∧
    Game.start gFuel exCreated.1 exCreated.2
      = Except.ok (exStart1.1, exStart1.2, (true, none)) ∧
    exStart1.1.state = some "DEALING" ∧ ¬ exStart1.1.state = some "PLAYING" :=
  ⟨reach_exCreated, by decide, by decide, by decide, by decide⟩

/-- C6 (counterexample): on the reachable PLAYING game whose deck was empty
(the DEALING hook drew `blackCard = null`), a non-tsar player's
`playByCardIndex` does not return a domain error — it throws, dereferencing
the null black card in `this.blackCard.getFillCount()`, refuting the
claim's "(never throws)". -/
theorem c6_playByCardIndex_throws_on_null_blackCard :
    Reach exStartedEmptyDeck.1 ∧
    exStartedEmptyDeck.1.state = some "PLAYING" ∧
    exStartedEmptyDeck.1.blackCard = none ∧
    exStartedEmptyDeck.1.tsar = some 1 ∧
    pidsOf exStartedEmptyDeck.1 = some [1, 2, 3] ∧
    Game.playByCardIndex gFuel exStartedEmptyDeck.1 1 0 exStartedEmptyDeck.2
      = Except.error "TypeError: cannot read blackCard of null" :=
  ⟨reach_exStartedEmptyDeck, by decide, by decide, by decide, by decide, by decide⟩

/-- C8 (counterexample): when the merged-in collection holds a card that the
target already holds (`colB`'s white card `w0` is also `colA`'s first white
card), a successful `merge` followed by `unmerge` does NOT restore the white
list to its pre-merge contents: the unmerge's `indexOf`-based splice removes
the first occurrence (`colA`'s own `w0`), leaving `[y1, w0]` instead of the
original `[w0, y1]` — the multiset is preserved but the list is not. -/
theorem c8_unmerge_reorders_on_aliasing :
    (colA.merge colB).2 = true ∧
    ((colA.merge colB).1.unmerge colB false).2 = true ∧
    colA.white = [w0, y1] ∧
    ((colA.merge colB).1.unmerge colB false).1.white = [y1, w0] ∧
    ¬ ((colA.merge colB).1.unmerge colB false).1.white = colA.white := by
  decide

/-- C10: a reachable PLAYING game (`exPlayedOnce`) whose black card has fill
count 2, where the non-tsar player at position 1 has already recorded hand
index 0, accepts `playByCardIndex(player, 0)` a second time: the call
succeeds and `played` becomes `[0, 0]` — duplicate indices within one round
are accepted. -/
theorem c10_duplicate_submission_accepted :
    Reach exPlayedOnce.1 ∧
    exPlayedOnce.1.state = some "PLAYING" ∧
    exPlayedOnce.1.tsar = some 1 ∧
    (exPlayedOnce.1.blackCard.map BlackCard.getFillCount) = some 2 ∧
    (exPlayedOnce.1.players.map fun l => l.map Player.played) = some [[], [0], []] ∧
    Game.playByCardIndex gFuel exPlayedOnce.1 1 0 exPlayedOnce.2
      = Except.ok (exPlayedTwice.1, exPlayedTwice.2, (true, none)) ∧
    (exPlayedTwice.1.players.map fun l => l.map Player.played) = some [[], [0, 0], []] :=
  ⟨reach_exPlayedOnce, by decide, by decide, by decide, by decide, by decide, by decide⟩


theorem setHooksRun_playingInv
    {inner : Game → String → Bool → Bool → Eff → Except String (Game × Eff × Bool)}
    (hinner : ∀ gi ei gi' ei' bi, inner gi "PLAYING" false false ei = Except.ok (gi', ei', bi) →
       playingInv gi → playingInv gi')
    {g2 : Game} {name : String} {e2 : Eff} {g' : Game} {e' : Eff} {b : Bool}
    (hg2 : g2.state = some name)
    (hpl : name = "PLAYING" → ∃ k, plen g2 = some k ∧ 3 ≤ k)
    (h : setHooksRun inner g2 name e2 = Except.ok (g', e', b)) :
    playingInv g' := by
  unfold setHooksRun at h
  by_cases hk : name = "KILLED"
  · rw [if_pos hk] at h
    simp only [pure_eq_ok, Except.ok.injEq, Prod.mk.injEq] at h
    obtain ⟨rfl, rfl, rfl⟩ := h
    intro hps
    rw [hg2, hk] at hps
    simp at hps
  · rw [if_neg hk] at h
    by_cases hw : name = "WAITING"
    · rw [if_pos hw] at h
      cases hp : g2.players with
      | none =>
        rw [getPlayersE] at h; rw [hp] at h
        simp only [error_bind] at h
        exact Except.noConfusion h
      | some l =>
        rw [getPlayersE] at h; rw [hp] at h
        simp only [ok_bind, pure_eq_ok, Except.ok.injEq, Prod.mk.injEq] at h
        obtain ⟨rfl, rfl, rfl⟩ := h
        intro hps
        simp only [hg2, hw] at hps
        simp at hps
    · rw [if_neg hw] at h
      by_cases hd : name = "DEALING"
      · rw [if_pos hd] at h
        cases h3 : g2.removePlayersPlayedCards with
        | error s => rw [h3] at h; simp only [error_bind] at h; exact Except.noConfusion h
        | ok g3 =>
        rw [h3] at h
        simp only [ok_bind] at h
        cases h4 : g3.fillAllPlayersCards e2 with
        | error s => rw [h4] at h; simp only [error_bind] at h; exact Except.noConfusion h
        | ok p4 =>
        rw [h4] at h
        simp only [ok_bind] at h
        obtain ⟨g4, e4⟩ := p4
        cases h5 : g4.chooseTsar e4 with
        | error s => rw [h5] at h; simp only [error_bind] at h; exact Except.noConfusion h
        | ok p5 =>
        rw [h5] at h
        simp only [ok_bind] at h
        obtain ⟨g5, e5⟩ := p5
        cases h6 : g5.chooseBlackCard e5 with
        | error s => rw [h6] at h; simp only [error_bind] at h; exact Except.noConfusion h
        | ok p6 =>
        rw [h6] at h
        simp only [ok_bind] at h
        obtain ⟨g6, e6⟩ := p6
        cases h7 : inner g6 "PLAYING" false false e6 with
        | error s => rw [h7] at h; simp only [error_bind] at h; exact Except.noConfusion h
        | ok p7 =>
        rw [h7] at h
        simp only [ok_bind] at h
        obtain ⟨g7, e7, b7⟩ := p7
        simp only [pure_eq_ok, Except.ok.injEq, Prod.mk.injEq] at h
        obtain ⟨rfl, rfl, rfl⟩ := h
        -- state is still DEALING in g6, so playingInv g6 holds vacuously
        obtain ⟨l3, hpl3, hg3⟩ := removePlayersPlayedCards_ok h3
        obtain ⟨l4, s4, c4, hpl4, hs4, hc4, hg4, he4⟩ := fillAllPlayersCards_ok h4
        obtain ⟨l5, hpl5, hg5, he5⟩ := chooseTsar_ok h5
        obtain ⟨c6, hc6, hg6, he6⟩ := chooseBlackCard_ok h6
        refine hinner g6 e6 _ _ _ h7 ?_
        intro hps6
        rw [hg6, hg5, hg4, hg3] at hps6
        simp only at hps6
        rw [hg2, hd] at hps6
        simp at hps6
      · rw [if_neg hd] at h
        simp only [pure_eq_ok, Except.ok.injEq, Prod.mk.injEq] at h
        obtain ⟨rfl, rfl, rfl⟩ := h
        intro hps
        rw [hg2] at hps
        have hnp : name = "PLAYING" := Option.some.inj hps
        exact hpl hnp


theorem setStateCore_playingInv
    {inner : Game → String → Bool → Bool → Eff → Except String (Game × Eff × Bool)}
    (hinner : ∀ gi ei gi' ei' bi, inner gi "PLAYING" false false ei = Except.ok (gi', ei', bi) →
       playingInv gi → playingInv gi')
    {g : Game} {name : String} {ff : Bool} {e : Eff} {g' : Game} {e' : Eff} {b : Bool}
    (h : setStateCore inner g name ff e = Except.ok (g', e', b))
    (hside : name = "PLAYING" → ff = false)
    (hinv : playingInv g) : playingInv g' := by
  unfold setStateCore at h
  cases htg : toGuard g name with
  | error s =>
    rw [htg] at h
    simp only [error_bind] at h
    exact Except.noConfusion h
  | ok fut =>
    rw [htg] at h
    simp only [ok_bind] at h
    split at h
    · -- the target's veto: nothing changed
      simp only [pure_eq_ok, Except.ok.injEq, Prod.mk.injEq] at h
      obtain ⟨rfl, rfl, rfl⟩ := h
      exact hinv
    · rename_i hveto
      -- helper fact: when the target is PLAYING, its to guard passed
      have hpl : ∀ (gx : Game), gx.state = some name →
          gx.players = g.players → name = "PLAYING" → ∃ k, plen gx = some k ∧ 3 ≤ k := by
        intro gx hgx hgp hnp
        subst hnp
        have hff : ff = false := hside rfl
        subst hff
        have hfut : fut = true := by
          by_contra hf
          exact hveto ⟨by simp, by simp [Bool.not_eq_true] at hf ⊢; exact hf⟩
        cases hp : g.players with
        | none => rw [toGuard_PLAYING_none g hp] at htg; exact Except.noConfusion htg
        | some l =>
          rw [toGuard_PLAYING_some hp] at htg
          have : fut = decide (3 ≤ l.length) := (Except.ok.inj htg).symm
          rw [hfut] at this
          refine ⟨l.length, ?_, of_decide_eq_true this.symm⟩
          rw [plen, hgp, hp]
          rfl
      cases hgs : g.state with
      | none =>
        rw [hgs] at h
        simp only [pure_eq_ok, ok_bind] at h
        exact setHooksRun_playingInv hinner rfl
          (hpl { g with state := some name } rfl rfl) h
      | some cur =>
        rw [hgs] at h
        simp only [ok_bind] at h
        cases hu : unsetHooks cur g with
        | error s =>
          rw [hu] at h
          simp only [error_bind] at h
          exact Except.noConfusion h
        | ok g1 =>
          rw [hu] at h
          simp only [ok_bind] at h
          rw [unsetHooks_ok hu] at h
          exact setHooksRun_playingInv hinner rfl
            (hpl { g with state := some name } rfl rfl) h

theorem setState_playingInv :
    ∀ (n : Nat) {g : Game} {name : String} {ff ft : Bool} {e : Eff}
      {g' : Game} {e' : Eff} {b : Bool},
      setState n g name ff ft e = Except.ok (g', e', b) →
      (name = "PLAYING" → ff = false) →
      playingInv g → playingInv g' := by
  intro n
  induction n with
  | zero =>
    intro g name ff ft e g' e' b h _ _
    simp [setState] at h
  | succ n ih =>
    intro g name ff ft e g' e' b h hside hinv
    simp only [setState] at h
    by_cases hn : name ∈ knownStates
    · rw [if_neg (not_not_intro hn)] at h
      cases hgs : g.state with
      | none =>
        rw [hgs] at h
        simp only [ok_bind, pure_eq_ok] at h
        rw [if_neg (by simp)] at h
        exact setStateCore_playingInv
          (fun gi ei gi' ei' bi hi => ih hi (fun _ => rfl)) h hside hinv
      | some cur =>
        rw [hgs] at h
        simp only [ok_bind] at h
        by_cases hff : ff
        · rw [if_pos hff] at h
          simp only [ok_bind, pure_eq_ok] at h
          rw [if_neg (by simp)] at h
          exact setStateCore_playingInv
            (fun gi ei gi' ei' bi hi => ih hi (fun _ => rfl)) h hside hinv
        · rw [if_neg hff] at h
          cases hfg : fromGuard cur name with
          | error s =>
            rw [hfg] at h
            simp only [error_bind] at h
            exact Except.noConfusion h
          | ok fro =>
            rw [hfg] at h
            simp only [ok_bind] at h
            split at h
            · simp only [pure_eq_ok, Except.ok.injEq, Prod.mk.injEq] at h
              obtain ⟨rfl, rfl, rfl⟩ := h
              exact hinv
            · exact setStateCore_playingInv
                (fun gi ei gi' ei' bi hi => ih hi (fun _ => rfl)) h hside hinv
    · rw [if_pos hn] at h
      simp only [pure_eq_ok, Except.ok.injEq, Prod.mk.injEq] at h
      obtain ⟨rfl, rfl, rfl⟩ := h
      exact hinv


theorem setHooksRun_flag
    {inner : Game → String → Bool → Bool → Eff → Except String (Game × Eff × Bool)}
    {g2 : Game} {name : String} {e2 : Eff} {g' : Game} {e' : Eff} {b : Bool}
    (h : setHooksRun inner g2 name e2 = Except.ok (g', e', b)) : b = true := by
  unfold setHooksRun at h
  split_ifs at h
  · simp only [pure_eq_ok, Except.ok.injEq, Prod.mk.injEq] at h
    exact h.2.2.symm
  · cases hp : g2.players with
    | none =>
      rw [getPlayersE] at h; rw [hp] at h
      simp only [error_bind] at h
      exact Except.noConfusion h
    | some l =>
      rw [getPlayersE] at h; rw [hp] at h
      simp only [ok_bind, pure_eq_ok, Except.ok.injEq, Prod.mk.injEq] at h
      exact h.2.2.symm
  · cases h3 : g2.removePlayersPlayedCards with
    | error s => rw [h3] at h; simp only [error_bind] at h; exact Except.noConfusion h
    | ok g3 =>
    rw [h3] at h
    simp only [ok_bind] at h
    cases h4 : g3.fillAllPlayersCards e2 with
    | error s => rw [h4] at h; simp only [error_bind] at h; exact Except.noConfusion h
    | ok p4 =>
    rw [h4] at h
    simp only [ok_bind] at h
    obtain ⟨g4, e4⟩ := p4
    cases h5 : g4.chooseTsar e4 with
    | error s => rw [h5] at h; simp only [error_bind] at h; exact Except.noConfusion h
    | ok p5 =>
    rw [h5] at h
    simp only [ok_bind] at h
    obtain ⟨g5, e5⟩ := p5
    cases h6 : g5.chooseBlackCard e5 with
    | error s => rw [h6] at h; simp only [error_bind] at h; exact Except.noConfusion h
    | ok p6 =>
    rw [h6] at h
    simp only [ok_bind] at h
    obtain ⟨g6, e6⟩ := p6
    cases h7 : inner g6 "PLAYING" false false e6 with
    | error s => rw [h7] at h; simp only [error_bind] at h; exact Except.noConfusion h
    | ok p7 =>
    rw [h7] at h
    simp only [ok_bind] at h
    obtain ⟨g7, e7, b7⟩ := p7
    simp only [pure_eq_ok, Except.ok.injEq, Prod.mk.injEq] at h
    exact h.2.2.symm
  · simp only [pure_eq_ok, Except.ok.injEq, Prod.mk.injEq] at h
    exact h.2.2.symm

/-- Every `ok` result of `setState` is either a refusal (`false`, machine
unchanged) or an accepted transition: the state was assigned and the
target's `set` hooks ran. -/
theorem setState_cases {n : Nat} {g : Game} {name : String} {ff ft : Bool}
    {e : Eff} {g' : Game} {e' : Eff} {b : Bool}
    (h : setState (n + 1) g name ff ft e = Except.ok (g', e', b)) :
    (b = false ∧ g' = g ∧ e' = e ∧ (name ∈ knownStates → ff = false) ∧
      (¬ name ∈ knownStates ∨
       (∃ cur fro, g.state = some cur ∧ fromGuard cur name = Except.ok fro ∧
          ¬ fro = true) ∨
       (∃ fut, toGuard g name = Except.ok fut ∧ ¬ fut = true))) ∨
    (b = true ∧ name ∈ knownStates ∧
      setHooksRun (setState n) { g with state := some name } name
        { e with trace := e.trace ++ [name] } = Except.ok (g', e', true)) := by
  simp only [setState] at h
  by_cases hn : name ∈ knownStates
  · rw [if_neg (not_not_intro hn)] at h
    have core : setStateCore (setState n) g name ff e = Except.ok (g', e', b) →
        (b = false ∧ g' = g ∧ e' = e ∧ (name ∈ knownStates → ff = false) ∧
          (¬ name ∈ knownStates ∨
           (∃ cur fro, g.state = some cur ∧ fromGuard cur name = Except.ok fro ∧
              ¬ fro = true) ∨
           (∃ fut, toGuard g name = Except.ok fut ∧ ¬ fut = true))) ∨
        (b = true ∧ name ∈ knownStates ∧
          setHooksRun (setState n) { g with state := some name } name
            { e with trace := e.trace ++ [name] } = Except.ok (g', e', true)) := by
      intro hc
      unfold setStateCore at hc
      cases htg : toGuard g name with
      | error s =>
        rw [htg] at hc
        simp only [error_bind] at hc
        exact Except.noConfusion hc
      | ok fut =>
        rw [htg] at hc
        simp only [ok_bind] at hc
        split at hc
        · rename_i hveto
          simp only [pure_eq_ok, Except.ok.injEq, Prod.mk.injEq] at hc
          refine Or.inl ⟨hc.2.2.symm, hc.1.symm, hc.2.1.symm,
            fun _ => by simpa using hveto.1,
            Or.inr (Or.inr ⟨fut, rfl, by simpa using hveto.2⟩)⟩
        · cases hgs : g.state with
          | none =>
            rw [hgs] at hc
            simp only [pure_eq_ok, ok_bind] at hc
            have hb := setHooksRun_flag hc
            subst hb
            exact Or.inr ⟨rfl, hn, hc⟩
          | some cur =>
            rw [hgs] at hc
            simp only [ok_bind] at hc
            cases hu : unsetHooks cur g with
            | error s =>
              rw [hu] at hc
              simp only [error_bind] at hc
              exact Except.noConfusion hc
            | ok g1 =>
              rw [hu] at hc
              simp only [ok_bind] at hc
              rw [unsetHooks_ok hu] at hc
              have hb := setHooksRun_flag hc
              subst hb
              exact Or.inr ⟨rfl, hn, hc⟩
    cases hgs : g.state with
    | none =>
      rw [hgs] at h
      simp only [pure_eq_ok, ok_bind] at h
      rw [if_neg (by simp)] at h
      rw [← hgs]
      exact core h
    | some cur =>
      rw [hgs] at h
      simp only [ok_bind] at h
      by_cases hff : ff
      · rw [if_pos hff] at h
        simp only [pure_eq_ok, ok_bind] at h
        rw [if_neg (by simp)] at h
        rw [← hgs]
        exact core h
      · rw [if_neg hff] at h
        cases hfg : fromGuard cur name with
        | error s =>
          rw [hfg] at h
          simp only [error_bind] at h
          exact Except.noConfusion h
        | ok fro =>
          rw [hfg] at h
          simp only [ok_bind] at h
          split at h
          · rename_i hfro
            simp only [pure_eq_ok, Except.ok.injEq, Prod.mk.injEq] at h
            exact Or.inl ⟨h.2.2.symm, h.1.symm, h.2.1.symm,
              fun _ => by simpa using hff,
              Or.inr (Or.inl ⟨cur, fro, rfl, by rw [hfg], hfro⟩)⟩
          · rw [← hgs]
            exact core h
  · rw [if_pos hn] at h
    simp only [pure_eq_ok, Except.ok.injEq, Prod.mk.injEq] at h
    exact Or.inl ⟨h.2.2.symm, h.1.symm, h.2.1.symm, fun hm => absurd hm hn, Or.inl hn⟩


theorem setHooksRun_KILLED
    {inner : Game → String → Bool → Bool → Eff → Except String (Game × Eff × Bool)}
    (g2 : Game) (e2 : Eff) :
    setHooksRun inner g2 "KILLED" e2 =
      Except.ok ({ g2 with host := none, tsar := none, players := none,
                           cards := none, blackCard := none, settings := none },
                 e2, true) := by
  simp [setHooksRun, pure_eq_ok]

theorem setHooksRun_WAITING_some
    {inner : Game → String → Bool → Bool → Eff → Except String (Game × Eff × Bool)}
    {g2 : Game} {l : List Player} (e2 : Eff) (hp : g2.players = some l) :
    setHooksRun inner g2 "WAITING" e2 =
      Except.ok ({ g2 with players := some (l.map fun p => { p with cards := [] }) },
                 e2, true) := by
  simp [setHooksRun, getPlayersE, hp, pure_eq_ok, ok_bind]

theorem setHooksRun_plain
    {inner : Game → String → Bool → Bool → Eff → Except String (Game × Eff × Bool)}
    {name : String} (g2 : Game) (e2 : Eff)
    (h1 : ¬ name = "KILLED") (h2 : ¬ name = "WAITING") (h3 : ¬ name = "DEALING") :
    setHooksRun inner g2 name e2 = Except.ok (g2, e2, true) := by
  unfold setHooksRun
  rw [if_neg h1, if_neg h2, if_neg h3]
  rfl

theorem setState_KILLED_ok {n : Nat} {g : Game} {ff ft : Bool} {e : Eff}
    {g' : Game} {e' : Eff} {b : Bool}
    (h : setState (n + 1) g "KILLED" ff ft e = Except.ok (g', e', b)) :
    (b = false ∧ g' = g ∧ e' = e) ∨
    (b = true ∧
      g' = { g with state := some "KILLED", host := none, tsar := none,
                    players := none, cards := none, blackCard := none,
                    settings := none } ∧
      e' = { e with trace := e.trace ++ ["KILLED"] }) := by
  rcases setState_cases h with ⟨hb, hg, he, _⟩ | ⟨hb, _, hr⟩
  · exact Or.inl ⟨hb, hg, he⟩
  · rw [setHooksRun_KILLED] at hr
    simp only [Except.ok.injEq, Prod.mk.injEq] at hr
    exact Or.inr ⟨hb, hr.1.symm, hr.2.1.symm⟩

theorem setState_WAITING_ok {n : Nat} {g : Game} {ff ft : Bool} {e : Eff}
    {g' : Game} {e' : Eff} {b : Bool}
    (h : setState (n + 1) g "WAITING" ff ft e = Except.ok (g', e', b)) :
    (b = false ∧ g' = g ∧ e' = e) ∨
    (b = true ∧ ∃ l, g.players = some l ∧
      g' = { g with state := some "WAITING",
                    players := some (l.map fun p => { p with cards := [] }) } ∧
      e' = { e with trace := e.trace ++ ["WAITING"] }) := by
  rcases setState_cases h with ⟨hb, hg, he, _⟩ | ⟨hb, _, hr⟩
  · exact Or.inl ⟨hb, hg, he⟩
  · unfold setHooksRun at hr
    rw [if_neg (by decide), if_pos rfl] at hr
    simp only [getPlayersE] at hr
    cases hp : g.players with
    | none =>
      rw [hp] at hr
      simp only [error_bind] at hr
      exact Except.noConfusion hr
    | some l =>
      rw [hp] at hr
      simp only [ok_bind, pure_eq_ok, Except.ok.injEq, Prod.mk.injEq] at hr
      exact Or.inr ⟨hb, l, rfl, hr.1.symm, hr.2.1.symm⟩

theorem setState_plain_ok {n : Nat} {g : Game} {name : String} {ff ft : Bool}
    {e : Eff} {g' : Game} {e' : Eff} {b : Bool}
    (h : setState (n + 1) g name ff ft e = Except.ok (g', e', b))
    (h1 : ¬ name = "KILLED") (h2 : ¬ name = "WAITING") (h3 : ¬ name = "DEALING") :
    (b = false ∧ g' = g ∧ e' = e) ∨
    (b = true ∧ g' = { g with state := some name } ∧
      e' = { e with trace := e.trace ++ [name] }) := by
  rcases setState_cases h with ⟨hb, hg, he, _⟩ | ⟨hb, _, hr⟩
  · exact Or.inl ⟨hb, hg, he⟩
  · rw [setHooksRun_plain _ _ h1 h2 h3] at hr
    simp only [Except.ok.injEq, Prod.mk.injEq] at hr
    exact Or.inr ⟨hb, hr.1.symm, hr.2.1.symm⟩

theorem playingInv_transfer {g g' : Game} (h : playingInv g)
    (hst : g'.state = g.state) (hpl : plen g' = plen g) : playingInv g' := by
  intro hp
  rw [hst] at hp
  obtain ⟨k, hk, h3⟩ := h hp
  exact ⟨k, by rw [hpl]; exact hk, h3⟩

theorem setHostByIndex_ok {g : Game} {i : Nat} {g' : Game} {b : Bool}
    (h : Game.setHostByIndex g i = Except.ok (g', b)) :
    g'.state = g.state ∧ g'.players = g.players ∧ g'.tsar = g.tsar ∧
    g'.cards = g.cards ∧ g'.blackCard = g.blackCard ∧ g'.settings = g.settings := by
  unfold Game.setHostByIndex at h
  cases hp : g.players with
  | none =>
    rw [getPlayersE] at h; rw [hp] at h
    simp only [error_bind] at h
    exact Except.noConfusion h
  | some l =>
    rw [getPlayersE] at h; rw [hp] at h
    simp only [pure_eq_ok, ok_bind] at h
    cases hg : l.get? i with
    | some p =>
      rw [hg] at h
      simp only [pure_eq_ok, Except.ok.injEq, Prod.mk.injEq] at h
      obtain ⟨rfl, rfl⟩ := h
      simp [hp]
    | none =>
      rw [hg] at h
      simp only [pure_eq_ok, Except.ok.injEq, Prod.mk.injEq] at h
      obtain ⟨rfl, rfl⟩ := h
      simp [hp]


theorem kill_ok {fuel : Nat} {g : Game} {e : Eff} {g' : Game} {e' : Eff} {b : Bool}
    (h : Game.kill fuel g e = Except.ok (g', e', b)) :
    b = true ∧
    g' = { g with state := some "KILLED", host := none, tsar := none,
                  players := none, cards := none, blackCard := none,
                  settings := none } ∧
    e' = { e with trace := e.trace ++ ["KILLED"] } := by
  unfold Game.kill at h
  cases fuel with
  | zero => simp [setState] at h
  | succ n =>
    rcases setState_KILLED_ok h with ⟨_, _, _⟩ | ⟨hb, hg, he⟩
    · rcases setState_cases h with ⟨_, _, _, himp, _⟩ | ⟨hb, _, hr⟩
      · exact absurd (himp (by decide)) (by decide)
      · rw [setHooksRun_KILLED] at hr
        simp only [Except.ok.injEq, Prod.mk.injEq] at hr
        exact ⟨hb, hr.1.symm, hr.2.1.symm⟩
    · exact ⟨hb, hg, he⟩

theorem findHost_ok {fuel : Nat} {g : Game} {e : Eff} {g' : Game} {e' : Eff}
    {b : Bool} (h : Game.findHost fuel g e = Except.ok (g', e', b)) :
    (g'.state = g.state ∧ g'.players = g.players ∧ g'.tsar = g.tsar ∧
     g'.cards = g.cards ∧ g'.blackCard = g.blackCard ∧ g'.settings = g.settings) ∨
    (g'.state = some "KILLED" ∧ g'.players = none) := by
  unfold Game.findHost at h
  cases hhh : g.hasHost with
  | error s => rw [hhh] at h; simp only [error_bind] at h; exact Except.noConfusion h
  | ok hh =>
  rw [hhh] at h
  simp only [ok_bind] at h
  split at h
  · cases hhp : g.hasPlayers with
    | error s => rw [hhp] at h; simp only [error_bind] at h; exact Except.noConfusion h
    | ok hp =>
    rw [hhp] at h
    simp only [ok_bind] at h
    split at h
    · cases hk : g.kill fuel e with
      | error s => rw [hk] at h; simp only [error_bind] at h; exact Except.noConfusion h
      | ok tri =>
        rw [hk] at h
        simp only [ok_bind] at h
        obtain ⟨gk, ek, bk⟩ := tri
        simp only [pure_eq_ok, Except.ok.injEq, Prod.mk.injEq] at h
        obtain ⟨rfl, rfl, rfl⟩ := h
        obtain ⟨_, hgk, _⟩ := kill_ok hk
        subst hgk
        exact Or.inr ⟨rfl, rfl⟩
    · cases hsh : g.setHostByIndex 0 with
      | error s => rw [hsh] at h; simp only [error_bind] at h; exact Except.noConfusion h
      | ok pr =>
        rw [hsh] at h
        simp only [ok_bind] at h
        obtain ⟨gh, bh⟩ := pr
        simp only [pure_eq_ok, Except.ok.injEq, Prod.mk.injEq] at h
        obtain ⟨rfl, rfl, rfl⟩ := h
        obtain ⟨h1, h2, h3, h4, h5, h6⟩ := setHostByIndex_ok hsh
        exact Or.inl ⟨h1, h2, h3, h4, h5, h6⟩
  · simp only [pure_eq_ok, Except.ok.injEq, Prod.mk.injEq] at h
    obtain ⟨rfl, rfl, rfl⟩ := h
    exact Or.inl ⟨rfl, rfl, rfl, rfl, rfl, rfl⟩


theorem setState_any_playingInv {fuel : Nat} {g : Game} {name : String}
    {ff ft : Bool} {e : Eff} {g' : Game} {e' : Eff} {b : Bool}
    (h : setState fuel g name ff ft e = Except.ok (g', e', b))
    (hside : name = "PLAYING" → ff = false)
    (hinv : playingInv g) : playingInv g' :=
  setState_playingInv fuel h hside hinv

theorem start_playingInv {fuel : Nat} {g : Game} {e : Eff} {g' : Game}
    {e' : Eff} {r : Info} (h : Game.start fuel g e = Except.ok (g', e', r))
    (hinv : playingInv g) : playingInv g' := by
  unfold Game.start at h
  split at h
  · simp only [pure_eq_ok, Except.ok.injEq, Prod.mk.injEq] at h
    obtain ⟨rfl, rfl, rfl⟩ := h
    exact hinv
  · cases hs : setState fuel g "DEALING" false false e with
    | error s => rw [hs] at h; simp only [error_bind] at h; exact Except.noConfusion h
    | ok tri =>
      rw [hs] at h
      simp only [ok_bind] at h
      obtain ⟨g1, e1, b1⟩ := tri
      simp only [pure_eq_ok, Except.ok.injEq, Prod.mk.injEq] at h
      obtain ⟨rfl, rfl, rfl⟩ := h
      exact setState_any_playingInv hs (fun hc => absurd hc (by decide)) hinv

theorem mergeCards_playingInv {g : Game} {col : CardCollection} {g' : Game}
    {b : Bool} (h : Game.mergeCards g col = Except.ok (g', b))
    (hinv : playingInv g) : playingInv g' := by
  unfold Game.mergeCards at h
  cases hc : g.cards with
  | none => rw [getCardsE] at h; rw [hc] at h; simp only [error_bind] at h; exact Except.noConfusion h
  | some c =>
    rw [getCardsE] at h; rw [hc] at h
    simp only [ok_bind, pure_eq_ok, Except.ok.injEq, Prod.mk.injEq] at h
    obtain ⟨rfl, rfl⟩ := h
    exact playingInv_transfer hinv rfl rfl

theorem setHostByIndex_playingInv {g : Game} {i : Nat} {g' : Game} {b : Bool}
    (h : Game.setHostByIndex g i = Except.ok (g', b))
    (hinv : playingInv g) : playingInv g' := by
  obtain ⟨h1, h2, _⟩ := setHostByIndex_ok h
  exact playingInv_transfer hinv h1 (by rw [plen, plen, h2])

theorem resetSettings_playingInv {g : Game} (hinv : playingInv g) :
    playingInv g.resetSettings :=
  playingInv_transfer hinv rfl rfl

theorem findHost_playingInv {fuel : Nat} {g : Game} {e : Eff} {g' : Game}
    {e' : Eff} {b : Bool} (h : Game.findHost fuel g e = Except.ok (g', e', b))
    (hinv : playingInv g) : playingInv g' := by
  rcases findHost_ok h with ⟨h1, h2, _⟩ | ⟨h1, _⟩
  · exact playingInv_transfer hinv h1 (by rw [plen, plen, h2])
  · intro hps
    rw [h1] at hps
    simp at hps

theorem checkWinner_playingInv {fuel : Nat} {g : Game} {e : Eff} {g' : Game}
    {e' : Eff} {b : Bool} (h : Game.checkWinner fuel g e = Except.ok (g', e', b))
    (hinv : playingInv g) : playingInv g' := by
  unfold Game.checkWinner at h
  cases hw : g.getWinners with
  | error s => rw [hw] at h; simp only [error_bind] at h; exact Except.noConfusion h
  | ok winners =>
  rw [hw] at h
  simp only [ok_bind] at h
  split at h
  · simp only [pure_eq_ok, Except.ok.injEq, Prod.mk.injEq] at h
    obtain ⟨rfl, rfl, rfl⟩ := h
    exact hinv
  · cases hs : setState fuel g "ENDGAME" true true e with
    | error s => rw [hs] at h; simp only [error_bind] at h; exact Except.noConfusion h
    | ok tri =>
      rw [hs] at h
      simp only [ok_bind] at h
      obtain ⟨g1, e1, b1⟩ := tri
      simp only [pure_eq_ok, Except.ok.injEq, Prod.mk.injEq] at h
      obtain ⟨rfl, rfl, rfl⟩ := h
      exact setState_any_playingInv hs (fun hc => absurd hc (by decide)) hinv

theorem kill_playingInv {fuel : Nat} {g : Game} {e : Eff} {g' : Game}
    {e' : Eff} {b : Bool} (h : Game.kill fuel g e = Except.ok (g', e', b))
    (hinv : playingInv g) : playingInv g' :=
  setState_any_playingInv h (fun hc => absurd hc (by decide)) hinv

theorem playByCardIndex_playingInv {fuel : Nat} {g : Game} {pIdx : Nat}
    {index : Int} {e : Eff} {g' : Game} {e' : Eff} {r : Info}
    (h : Game.playByCardIndex fuel g pIdx index e = Except.ok (g', e', r))
    (hinv : playingInv g) : playingInv g' := by
  unfold Game.playByCardIndex at h
  split at h
  · simp only [pure_eq_ok, Except.ok.injEq, Prod.mk.injEq] at h
    obtain ⟨rfl, rfl, rfl⟩ := h
    exact hinv
  · cases hp : g.players with
    | none => rw [getPlayersE] at h; rw [hp] at h; simp only [error_bind] at h; exact Except.noConfusion h
    | some l =>
    rw [getPlayersE] at h; rw [hp] at h
    simp only [pure_eq_ok, ok_bind] at h
    split at h
    · simp only [pure_eq_ok, Except.ok.injEq, Prod.mk.injEq] at h
      obtain ⟨rfl, rfl, rfl⟩ := h
      exact hinv
    · cases hbc : g.blackCard with
      | none => rw [getBlackCardE] at h; rw [hbc] at h; simp only [error_bind] at h; exact Except.noConfusion h
      | some bc =>
      rw [getBlackCardE] at h; rw [hbc] at h
      simp only [pure_eq_ok, ok_bind] at h
      split at h
      · simp only [pure_eq_ok, Except.ok.injEq, Prod.mk.injEq] at h
        obtain ⟨rfl, rfl, rfl⟩ := h
        exact hinv
      · split at h
        · simp only [pure_eq_ok, Except.ok.injEq, Prod.mk.injEq] at h
          obtain ⟨rfl, rfl, rfl⟩ := h
          exact hinv
        · -- success path: the hand index was recorded
          generalize hg1 : ({ state := g.state, host := g.host, tsar := g.tsar, players := some (l.set pIdx { pid := (l.getD pIdx defaultPlayer).pid, id := (l.getD pIdx defaultPlayer).id, cards := (l.getD pIdx defaultPlayer).cards, played := (l.getD pIdx defaultPlayer).played ++ [index.toNat], points := (l.getD pIdx defaultPlayer).points }), cards := g.cards, blackCard := some bc, settings := g.settings } : Game) = g1 at h
          have hinv1 : playingInv g1 := by
            rw [← hg1]
            refine playingInv_transfer hinv rfl ?_
            simp [plen, hp]
          cases hdone : g1.donePlaying with
          | error s => rw [hdone] at h; simp only [error_bind] at h; exact Except.noConfusion h
          | ok done =>
          rw [hdone] at h
          simp only [ok_bind] at h
          split at h
          · cases hs1 : setState fuel g1 "INBETWEENTURN" false false e with
            | error s => rw [hs1] at h; simp only [error_bind] at h; exact Except.noConfusion h
            | ok tri1 =>
            rw [hs1] at h
            simp only [ok_bind] at h
            obtain ⟨ga, ea, ba⟩ := tri1
            have hinva : playingInv ga :=
              setState_any_playingInv hs1 (fun hc => absurd hc (by decide)) hinv1
            cases hs2 : setState fuel ga "TSARTURN" false false ea with
            | error s => rw [hs2] at h; simp only [error_bind] at h; exact Except.noConfusion h
            | ok tri2 =>
            rw [hs2] at h
            simp only [ok_bind] at h
            obtain ⟨gb, eb, bb⟩ := tri2
            have hinvb : playingInv gb :=
              setState_any_playingInv hs2 (fun hc => absurd hc (by decide)) hinva
            simp only [pure_eq_ok, Except.ok.injEq, Prod.mk.injEq] at h
            obtain ⟨rfl, rfl, rfl⟩ := h
            exact hinvb
          · simp only [pure_eq_ok, Except.ok.injEq, Prod.mk.injEq] at h
            obtain ⟨rfl, rfl, rfl⟩ := h
            exact hinv1


theorem bind_ok_elim {α β : Type} {m : Except String α} {f : α → Except String β}
    {b : β} (h : (m >>= f) = Except.ok b) :
    ∃ a, m = Except.ok a ∧ f a = Except.ok b := by
  cases m with
  | error s => rw [error_bind] at h; exact Except.noConfusion h
  | ok a => exact ⟨a, rfl, h⟩

theorem playingInv_append {g : Game} {l : List Player} (hpl : g.players = some l)
    (hinv : playingInv g) (p : Player) :
    playingInv { g with players := some (l ++ [p]) } := by
  intro hps
  obtain ⟨k, hk, h3⟩ := hinv hps
  rw [plen, hpl] at hk
  simp only [Option.map_some', Option.some.injEq] at hk
  refine ⟨l.length + 1, by simp [plen], by omega⟩

theorem playingInv_lastFill {g : Game} {l : List Player} (hpl : g.players = some l)
    (hinv : playingInv g) (q : Player) (hne : l ≠ []) :
    playingInv { g with players := some (l.dropLast ++ [q]) } := by
  intro hps
  obtain ⟨k, hk, h3⟩ := hinv hps
  rw [plen, hpl] at hk
  simp only [Option.map_some', Option.some.injEq] at hk
  have hlen : 0 < l.length := List.length_pos.mpr hne
  refine ⟨l.dropLast.length + 1, by simp [plen], ?_⟩
  rw [List.length_dropLast]
  omega

theorem chooseTurnWinner_playingInv {fuel : Nat} {g : Game} {tsar : Nat}
    {index : Int} {e : Eff} {g' : Game} {e' : Eff} {r : Info}
    (h : Game.chooseTurnWinnerByIndex fuel g tsar index e = Except.ok (g', e', r))
    (hinv : playingInv g) : playingInv g' := by
  unfold Game.chooseTurnWinnerByIndex at h
  split at h
  · simp only [pure_eq_ok, Except.ok.injEq, Prod.mk.injEq] at h
    obtain ⟨rfl, rfl, rfl⟩ := h
    exact hinv
  · split at h
    · simp only [pure_eq_ok, Except.ok.injEq, Prod.mk.injEq] at h
      obtain ⟨rfl, rfl, rfl⟩ := h
      exact hinv
    · obtain ⟨choices, hch, h⟩ := bind_ok_elim h
      try simp only [] at h
      split at h
      · simp only [pure_eq_ok, Except.ok.injEq, Prod.mk.injEq] at h
        obtain ⟨rfl, rfl, rfl⟩ := h
        exact hinv
      · obtain ⟨l, hl, h⟩ := bind_ok_elim h
        have hpl : g.players = some l := getPlayersE_ok.mp hl
        try simp only [] at h
        obtain ⟨tri, hcw, h⟩ := bind_ok_elim h
        obtain ⟨g2, e2, won⟩ := tri
        try simp only [] at h
        have hinv2 : playingInv g2 :=
          checkWinner_playingInv hcw
            (playingInv_transfer hinv rfl (by simp [plen, hpl]))
        split at h
        · obtain ⟨tri3, hs3, h⟩ := bind_ok_elim h
          obtain ⟨g3, e3, b3⟩ := tri3
          try simp only [] at h
          simp only [pure_eq_ok, Except.ok.injEq, Prod.mk.injEq] at h
          obtain ⟨rfl, rfl, rfl⟩ := h
          exact setState_any_playingInv hs3 (fun hc => absurd hc (by decide)) hinv2
        · simp only [pure_eq_ok, Except.ok.injEq, Prod.mk.injEq] at h
          obtain ⟨rfl, rfl, rfl⟩ := h
          exact hinv2

theorem addPlayer_playingInv {fuel : Nat} {g : Game} {p : Player} {e : Eff}
    {g' : Game} {e' : Eff} {r : Info}
    (h : Game.addPlayer fuel g p e = Except.ok (g', e', r))
    (hinv : playingInv g) : playingInv g' := by
  unfold Game.addPlayer at h
  obtain ⟨l, hl, h⟩ := bind_ok_elim h
  have hpl : g.players = some l := getPlayersE_ok.mp hl
  try simp only [] at h
  obtain ⟨s, hs, h⟩ := bind_ok_elim h
  try simp only [] at h
  split at h
  · simp only [pure_eq_ok, Except.ok.injEq, Prod.mk.injEq] at h
    obtain ⟨rfl, rfl, rfl⟩ := h
    exact hinv
  · obtain ⟨tri, hfh, h⟩ := bind_ok_elim h
    obtain ⟨g2, e2, b2⟩ := tri
    try simp only [] at h
    have hinv1 : playingInv g2 :=
      findHost_playingInv hfh (playingInv_append hpl hinv p)
    split at h
    · obtain ⟨tri4, hs4, h⟩ := bind_ok_elim h
      obtain ⟨g4, e4, b4⟩ := tri4
      try simp only [] at h
      obtain ⟨y, hy, h⟩ := bind_ok_elim h
      obtain ⟨g3, e3⟩ := y
      simp only [pure_eq_ok, Except.ok.injEq, Prod.mk.injEq] at hy
      obtain ⟨rfl, rfl⟩ := hy
      try simp only [] at h
      have hinv3 : playingInv g4 :=
        setState_any_playingInv hs4 (fun hc => absurd hc (by decide)) hinv1
      split at h
      · obtain ⟨l3, hl3, h⟩ := bind_ok_elim h
        have hpl3 := getPlayersE_ok.mp hl3
        try simp only [] at h
        obtain ⟨s3, hs3, h⟩ := bind_ok_elim h
        try simp only [] at h
        obtain ⟨col3, hc3, h⟩ := bind_ok_elim h
        try simp only [] at h
        split at h
        · rename_i lastP hlast
          simp only [pure_eq_ok, Except.ok.injEq, Prod.mk.injEq] at h
          obtain ⟨rfl, rfl, rfl⟩ := h
          exact playingInv_lastFill hpl3 hinv3 _
            (by intro hnil; rw [hnil] at hlast; simp at hlast)
        · exact Except.noConfusion h
      · simp only [pure_eq_ok, Except.ok.injEq, Prod.mk.injEq] at h
        obtain ⟨rfl, rfl, rfl⟩ := h
        exact hinv3
    · obtain ⟨y, hy, h⟩ := bind_ok_elim h
      obtain ⟨g3, e3⟩ := y
      simp only [pure_eq_ok, Except.ok.injEq, Prod.mk.injEq] at hy
      obtain ⟨rfl, rfl⟩ := hy
      try simp only [] at h
      split at h
      · obtain ⟨l3, hl3, h⟩ := bind_ok_elim h
        have hpl3 := getPlayersE_ok.mp hl3
        try simp only [] at h
        obtain ⟨s3, hs3, h⟩ := bind_ok_elim h
        try simp only [] at h
        obtain ⟨col3, hc3, h⟩ := bind_ok_elim h
        try simp only [] at h
        split at h
        · rename_i lastP hlast
          simp only [pure_eq_ok, Except.ok.injEq, Prod.mk.injEq] at h
          obtain ⟨rfl, rfl, rfl⟩ := h
          exact playingInv_lastFill hpl3 hinv1 _
            (by intro hnil; rw [hnil] at hlast; simp at hlast)
        · exact Except.noConfusion h
      · simp only [pure_eq_ok, Except.ok.injEq, Prod.mk.injEq] at h
        obtain ⟨rfl, rfl, rfl⟩ := h
        exact hinv1


theorem fromGuard_PLAYING_WAITING : fromGuard "PLAYING" "WAITING" = Except.ok true := by
  simp [fromGuard, pure_eq_ok]

theorem unsetHooks_PLAYING (g : Game) : unsetHooks "PLAYING" g = Except.ok g := by
  simp [unsetHooks, knownStates, pure_eq_ok]

theorem setState_WAITING_from_PLAYING {n : Nat} {g : Game} {ft : Bool} {e : Eff}
    {l : List Player} (hst : g.state = some "PLAYING") (hp : g.players = some l)
    (h1 : 1 ≤ l.length) :
    setState (n + 1) g "WAITING" false ft e =
      Except.ok ({ g with state := some "WAITING",
                          players := some (l.map fun p => { p with cards := [] }) },
                 { e with trace := e.trace ++ ["WAITING"] }, true) := by
  simp only [setState]
  rw [if_neg (by decide)]
  rw [hst]
  simp only [Bool.false_eq_true, if_false, fromGuard_PLAYING_WAITING, ok_bind]
  rw [if_neg (by simp)]
  unfold setStateCore
  rw [toGuard_WAITING_some hp]
  simp only [ok_bind]
  rw [if_neg (by simp [decide_eq_true h1])]
  rw [hst]
  simp only [unsetHooks_PLAYING, ok_bind]
  exact setHooksRun_WAITING_some _ hp

theorem splice_len_ge {l : List Player} (S : Nat) (h3 : 3 ≤ l.length) :
    2 ≤ (l.take S ++ l.drop (S + 1)).length := by
  simp only [List.length_append, List.length_take, List.length_drop]
  omega

/-- Refusal of an unforced `setState` to WAITING from a PLAYING state with a
nonempty player list is impossible: the `from` guard of PLAYING allows
WAITING and the `to` guard of WAITING needs one player. -/
theorem no_refuse_WAITING {g : Game} {L : List Player}
    (hst : g.state = some "PLAYING") (hp : g.players = some L)
    (hL : 1 ≤ L.length)
    (hreason : ¬ "WAITING" ∈ knownStates ∨
      (∃ cur fro, g.state = some cur ∧ fromGuard cur "WAITING" = Except.ok fro ∧
         ¬ fro = true) ∨
      (∃ fut, toGuard g "WAITING" = Except.ok fut ∧ ¬ fut = true)) : False := by
  rcases hreason with hk | ⟨cur, fro, hc, hfg, hfro⟩ | ⟨fut, htg, hfut⟩
  · exact hk (by decide)
  · rw [hst] at hc
    obtain rfl : cur = "PLAYING" := (Option.some.inj hc).symm
    rw [fromGuard_PLAYING_WAITING] at hfg
    exact hfro (Except.ok.inj hfg).symm
  · rw [toGuard_WAITING_some hp] at htg
    have : fut = decide (1 ≤ L.length) := (Except.ok.inj htg).symm
    rw [this] at hfut
    exact hfut (decide_eq_true hL)

theorem setHooksRun_WAITING_state
    {inner : Game → String → Bool → Bool → Eff → Except String (Game × Eff × Bool)}
    {g2 : Game} {e2 : Eff} {g' : Game} {e' : Eff} {b : Bool}
    (h : setHooksRun inner g2 "WAITING" e2 = Except.ok (g', e', b)) :
    g'.state = g2.state := by
  unfold setHooksRun at h
  rw [if_neg (by decide), if_pos rfl] at h
  obtain ⟨L2, hL2, h⟩ := bind_ok_elim h
  simp only [pure_eq_ok, Except.ok.injEq, Prod.mk.injEq] at h
  obtain ⟨rfl, rfl, rfl⟩ := h
  rfl

theorem removePlayerByIndex_playingInv {fuel : Nat} {g : Game} {index : Int}
    {e : Eff} {g' : Game} {e' : Eff} {r : Info}
    (h : Game.removePlayerByIndex fuel g index e = Except.ok (g', e', r))
    (hinv : playingInv g) : playingInv g' := by
  unfold Game.removePlayerByIndex at h
  split at h
  · simp only [pure_eq_ok, Except.ok.injEq, Prod.mk.injEq] at h
    obtain ⟨rfl, rfl, rfl⟩ := h
    exact hinv
  · obtain ⟨l, hl, h⟩ := bind_ok_elim h
    have hpl : g.players = some l := getPlayersE_ok.mp hl
    try simp only [] at h
    split at h
    case isFalse =>
      simp only [pure_eq_ok, Except.ok.injEq, Prod.mk.injEq] at h
      obtain ⟨rfl, rfl, rfl⟩ := h
      exact hinv
    case isTrue hlt =>
      split at h
      case isTrue hidx =>
        split at h
        · -- host matched: findHost runs on the spliced list with a null host
          obtain ⟨tri, hfh, h⟩ := bind_ok_elim h
          obtain ⟨ga, ea, ba⟩ := tri
          try simp only [] at h
          obtain ⟨y, hy, h⟩ := bind_ok_elim h
          obtain ⟨g2, e2⟩ := y
          simp only [pure_eq_ok, Except.ok.injEq, Prod.mk.injEq] at hy
          obtain ⟨rfl, rfl⟩ := hy
          try simp only [] at h
          rcases findHost_ok hfh with ⟨hfst, hfp, _⟩ | ⟨hkst, _⟩
          · try simp only [] at hfst
            try simp only [] at hfp
            split at h
            case isTrue hpw =>
              obtain ⟨tri2, hs2, h⟩ := bind_ok_elim h
              obtain ⟨gb, eb, bb⟩ := tri2
              try simp only [] at h
              obtain ⟨y2, hy2, h⟩ := bind_ok_elim h
              obtain ⟨g3, e3⟩ := y2
              simp only [pure_eq_ok, Except.ok.injEq, Prod.mk.injEq] at hy2
              obtain ⟨rfl, rfl⟩ := hy2
              try simp only [] at h
              simp only [pure_eq_ok, Except.ok.injEq, Prod.mk.injEq] at h
              obtain ⟨rfl, rfl, rfl⟩ := h
              have h3 : 3 ≤ l.length := by
                obtain ⟨k, hk, hk3⟩ := hinv (by rw [← hfst]; exact hpw)
                rw [plen, hpl] at hk
                simp only [Option.map_some', Option.some.injEq] at hk
                omega
              cases fuel with
              | zero => simp [setState] at hs2
              | succ n =>
                rcases setState_cases hs2 with ⟨_, rfl, _, _, hreason⟩ | ⟨_, _, hrun⟩
                · exact absurd (no_refuse_WAITING hpw hfp
                    (le_trans (by omega) (splice_len_ge (index.toNat) h3)) hreason) not_false
                · intro hps
                  rw [setHooksRun_WAITING_state hrun] at hps
                  simp at hps
            case isFalse hpw =>
              try simp only [] at h
              simp only [pure_eq_ok, Except.ok.injEq, Prod.mk.injEq] at h
              obtain ⟨rfl, rfl, rfl⟩ := h
              intro hps
              exact absurd hps hpw
          · split at h
            case isTrue hpw => rw [hkst] at hpw; exact absurd hpw (by simp)
            case isFalse hpw =>
              try simp only [] at h
              simp only [pure_eq_ok, Except.ok.injEq, Prod.mk.injEq] at h
              obtain ⟨rfl, rfl, rfl⟩ := h
              intro hps
              exact absurd hps hpw
        · -- host did not match: no re-election
          obtain ⟨y, hy, h⟩ := bind_ok_elim h
          obtain ⟨g2, e2⟩ := y
          simp only [pure_eq_ok, Except.ok.injEq, Prod.mk.injEq] at hy
          obtain ⟨rfl, rfl⟩ := hy
          try simp only [] at h
          split at h
          case isTrue hpw =>
            obtain ⟨tri2, hs2, h⟩ := bind_ok_elim h
            obtain ⟨gb, eb, bb⟩ := tri2
            try simp only [] at h
            obtain ⟨y2, hy2, h⟩ := bind_ok_elim h
            obtain ⟨g3, e3⟩ := y2
            simp only [pure_eq_ok, Except.ok.injEq, Prod.mk.injEq] at hy2
            obtain ⟨rfl, rfl⟩ := hy2
            try simp only [] at h
            simp only [pure_eq_ok, Except.ok.injEq, Prod.mk.injEq] at h
            obtain ⟨rfl, rfl, rfl⟩ := h
            have hst2 : g.state = some "PLAYING" := by
              try simp only [] at hpw
              exact hpw
            have h3 : 3 ≤ l.length := by
              obtain ⟨k, hk, hk3⟩ := hinv hst2
              rw [plen, hpl] at hk
              simp only [Option.map_some', Option.some.injEq] at hk
              omega
            cases fuel with
            | zero => simp [setState] at hs2
            | succ n =>
              rcases setState_cases hs2 with ⟨_, rfl, _, _, hreason⟩ | ⟨_, _, hrun⟩
              · refine absurd (no_refuse_WAITING ?_ rfl ?_ hreason) not_false
                · exact hpw
                · exact le_trans (by omega) (splice_len_ge (index.toNat) h3)
              · intro hps
                rw [setHooksRun_WAITING_state hrun] at hps
                simp at hps
          case isFalse hpw =>
            try simp only [] at h
            simp only [pure_eq_ok, Except.ok.injEq, Prod.mk.injEq] at h
            obtain ⟨rfl, rfl, rfl⟩ := h
            intro hps
            exact absurd hps hpw
      case isFalse hidx =>
        split at h
        · -- host matched: findHost runs on the spliced list with a null host
          obtain ⟨tri, hfh, h⟩ := bind_ok_elim h
          obtain ⟨ga, ea, ba⟩ := tri
          try simp only [] at h
          obtain ⟨y, hy, h⟩ := bind_ok_elim h
          obtain ⟨g2, e2⟩ := y
          simp only [pure_eq_ok, Except.ok.injEq, Prod.mk.injEq] at hy
          obtain ⟨rfl, rfl⟩ := hy
          try simp only [] at h
          rcases findHost_ok hfh with ⟨hfst, hfp, _⟩ | ⟨hkst, _⟩
          · try simp only [] at hfst
            try simp only [] at hfp
            split at h
            case isTrue hpw =>
              obtain ⟨tri2, hs2, h⟩ := bind_ok_elim h
              obtain ⟨gb, eb, bb⟩ := tri2
              try simp only [] at h
              obtain ⟨y2, hy2, h⟩ := bind_ok_elim h
              obtain ⟨g3, e3⟩ := y2
              simp only [pure_eq_ok, Except.ok.injEq, Prod.mk.injEq] at hy2
              obtain ⟨rfl, rfl⟩ := hy2
              try simp only [] at h
              simp only [pure_eq_ok, Except.ok.injEq, Prod.mk.injEq] at h
              obtain ⟨rfl, rfl, rfl⟩ := h
              have h3 : 3 ≤ l.length := by
                obtain ⟨k, hk, hk3⟩ := hinv (by rw [← hfst]; exact hpw)
                rw [plen, hpl] at hk
                simp only [Option.map_some', Option.some.injEq] at hk
                omega
              cases fuel with
              | zero => simp [setState] at hs2
              | succ n =>
                rcases setState_cases hs2 with ⟨_, rfl, _, _, hreason⟩ | ⟨_, _, hrun⟩
                · exact absurd (no_refuse_WAITING hpw hfp
                    (le_trans (by omega) (splice_len_ge (l.length - (-index).toNat) h3)) hreason) not_false
                · intro hps
                  rw [setHooksRun_WAITING_state hrun] at hps
                  simp at hps
            case isFalse hpw =>
              try simp only [] at h
              simp only [pure_eq_ok, Except.ok.injEq, Prod.mk.injEq] at h
              obtain ⟨rfl, rfl, rfl⟩ := h
              intro hps
              exact absurd hps hpw
          · split at h
            case isTrue hpw => rw [hkst] at hpw; exact absurd hpw (by simp)
            case isFalse hpw =>
              try simp only [] at h
              simp only [pure_eq_ok, Except.ok.injEq, Prod.mk.injEq] at h
              obtain ⟨rfl, rfl, rfl⟩ := h
              intro hps
              exact absurd hps hpw
        · -- host did not match: no re-election
          obtain ⟨y, hy, h⟩ := bind_ok_elim h
          obtain ⟨g2, e2⟩ := y
          simp only [pure_eq_ok, Except.ok.injEq, Prod.mk.injEq] at hy
          obtain ⟨rfl, rfl⟩ := hy
          try simp only [] at h
          split at h
          case isTrue hpw =>
            obtain ⟨tri2, hs2, h⟩ := bind_ok_elim h
            obtain ⟨gb, eb, bb⟩ := tri2
            try simp only [] at h
            obtain ⟨y2, hy2, h⟩ := bind_ok_elim h
            obtain ⟨g3, e3⟩ := y2
            simp only [pure_eq_ok, Except.ok.injEq, Prod.mk.injEq] at hy2
            obtain ⟨rfl, rfl⟩ := hy2
            try simp only [] at h
            simp only [pure_eq_ok, Except.ok.injEq, Prod.mk.injEq] at h
            obtain ⟨rfl, rfl, rfl⟩ := h
            have hst2 : g.state = some "PLAYING" := by
              try simp only [] at hpw
              exact hpw
            have h3 : 3 ≤ l.length := by
              obtain ⟨k, hk, hk3⟩ := hinv hst2
              rw [plen, hpl] at hk
              simp only [Option.map_some', Option.some.injEq] at hk
              omega
            cases fuel with
            | zero => simp [setState] at hs2
            | succ n =>
              rcases setState_cases hs2 with ⟨_, rfl, _, _, hreason⟩ | ⟨_, _, hrun⟩
              · refine absurd (no_refuse_WAITING ?_ rfl ?_ hreason) not_false
                · exact hpw
                · exact le_trans (by omega) (splice_len_ge (l.length - (-index).toNat) h3)
              · intro hps
                rw [setHooksRun_WAITING_state hrun] at hps
                simp at hps
          case isFalse hpw =>
            try simp only [] at h
            simp only [pure_eq_ok, Except.ok.injEq, Prod.mk.injEq] at h
            obtain ⟨rfl, rfl, rfl⟩ := h
            intro hps
            exact absurd hps hpw

/-- `Game.create` produces a game satisfying the PLAYING invariant: the fresh
game is in INIT, `addPlayer` and the move to WAITING preserve the property. -/
theorem create_playingInv {fuel : Nat} {p : Player} {e : Eff} {g : Game}
    {e' : Eff} (h : Game.create fuel p e = Except.ok (g, e')) : playingInv g := by
  unfold Game.create at h
  revert h
  cases hne : Game.new e with
  | mk g0 e0 =>
    intro h
    try simp only [] at h
    obtain ⟨tri, ha, h⟩ := bind_ok_elim h
    obtain ⟨g1, e1, r1⟩ := tri
    try simp only [] at h
    obtain ⟨tri2, hs, h⟩ := bind_ok_elim h
    obtain ⟨g2, e2, b2⟩ := tri2
    try simp only [] at h
    simp only [pure_eq_ok, Except.ok.injEq, Prod.mk.injEq] at h
    obtain ⟨rfl, rfl⟩ := h
    have hst0 : g0.state = some "INIT" := by
      have hfst := congrArg Prod.fst hne
      simp only [Game.new, freshId] at hfst
      rw [← hfst]
    have hinv0 : playingInv g0 := by
      intro hps
      rw [hst0] at hps
      exact absurd hps (by decide)
    exact setState_any_playingInv hs (fun hc => absurd hc (by decide))
      (addPlayer_playingInv ha hinv0)

/-- Every reachable game satisfies the PLAYING invariant: in state PLAYING the
player list exists and holds at least three players. -/
theorem reach_playingInv {g : Game} (h : Reach g) : playingInv g := by
  induction h with
  | created fuel p e g e' hc => exact create_playingInv hc
  | addP g fuel p e g' e' r hr hf ha ih => exact addPlayer_playingInv ha ih
  | removeP g fuel index e g' e' r hr hrm ih =>
      exact removePlayerByIndex_playingInv hrm ih
  | startP g fuel e g' e' r hr hs ih => exact start_playingInv hs ih
  | playP g fuel pIdx index e g' e' r hr hp ih =>
      exact playByCardIndex_playingInv hp ih
  | chooseP g fuel tsar index e g' e' r hr hc ih =>
      exact chooseTurnWinner_playingInv hc ih
  | killP g fuel e g' e' b hr hk ih => exact kill_playingInv hk ih
  | mergeP g col g' b hr hm ih => exact mergeCards_playingInv hm ih
  | setHostP g index g' b hr hs ih => exact setHostByIndex_playingInv hs ih
  | resetP g hr ih => exact resetSettings_playingInv ih

/-- An unforced `setState` out of KILLED is always refused: KILLED's single
`from` hook returns `false` for every target, and an unknown target is
rejected before the guards run. -/
theorem setState_from_KILLED (n : Nat) (g : Game) (name : String) (ft : Bool)
    (e : Eff) (hst : g.state = some "KILLED") :
    setState (n + 1) g name false ft e = Except.ok (g, e, false) := by
  simp only [setState]
  by_cases hn : name ∈ knownStates
  · rw [if_neg (not_not_intro hn), hst]
    have hfg : fromGuard "KILLED" name = Except.ok false := by
      unfold fromGuard
      rw [if_neg (by decide), if_pos rfl]
      rfl
    simp only [Bool.false_eq_true, if_false, hfg, ok_bind]
    simp [pure_eq_ok]
  · rw [if_pos hn]
    rfl

/-- A forced `setState` out of KILLED to any known target throws: either the
target's `to` guard dereferences the nulled `players`, or KILLED's `unset`
hook raises its "Attempting to convert killed game object" error. -/
theorem setState_forced_from_KILLED {n : Nat} {g : Game} {name : String}
    {ft : Bool} {e : Eff} (hst : g.state = some "KILLED")
    (hn : name ∈ knownStates) :
    ∃ s, setState (n + 1) g name true ft e = Except.error s := by
  simp only [setState]
  rw [if_neg (not_not_intro hn), hst]
  simp only [if_true, ok_bind, pure_eq_ok]
  unfold setStateCore
  cases htg : toGuard g name with
  | error s =>
    exact ⟨s, by simp [error_bind]⟩
  | ok fut =>
    refine ⟨"Error: Attempting to convert killed game object into non-killed game object, apparently.", ?_⟩
    rw [if_neg (by simp)]
    simp only [ok_bind]
    rw [if_neg (by simp)]
    rw [hst]
    have hun : unsetHooks "KILLED" g = Except.error
        "Error: Attempting to convert killed game object into non-killed game object, apparently." := by
      unfold unsetHooks
      rw [if_pos rfl]
    simp only [hun, error_bind]

/-- `Game#kill` characterized: the forced transition to KILLED cannot be
refused, and the KILLED `set` hook nulls every field. -/
theorem kill_run {n : Nat} {g : Game} {e : Eff} {g' : Game} {e' : Eff}
    {b : Bool} (h : Game.kill (n + 1) g e = Except.ok (g', e', b)) :
    b = true ∧
    g' = { state := some "KILLED", host := none, tsar := none, players := none,
           cards := none, blackCard := none, settings := none } ∧
    e' = { e with trace := e.trace ++ ["KILLED"] } := by
  unfold Game.kill at h
  rcases setState_cases h with ⟨_, _, _, hff, _⟩ | ⟨hb, _, hr⟩
  · exact absurd (hff (by decide)) (by decide)
  · rw [setHooksRun_KILLED] at hr
    simp only [Except.ok.injEq, Prod.mk.injEq] at hr
    exact ⟨hb, hr.1.symm, hr.2.1.symm⟩

/-- C7: KILLED is terminal.  A successful `kill()` reports `true` and lands in
KILLED; from there every non-forced `setState` (any target, any `forceTo`) is
refused with `false` and changes nothing, and every forced attempt at a known
target throws instead of leaving KILLED. -/
theorem c7_killed_is_terminal {n : Nat} {g : Game} {e : Eff} {g' : Game}
    {e' : Eff} {b : Bool}
    (h : Game.kill (n + 1) g e = Except.ok (g', e', b)) :
    b = true ∧ g'.state = some "KILLED" ∧
    (∀ (m : Nat) (name : String) (ft : Bool) (e2 : Eff),
        setState (m + 1) g' name false ft e2 = Except.ok (g', e2, false)) ∧
    (∀ (m : Nat) (name : String) (ft : Bool) (e2 : Eff), name ∈ knownStates →
        ∃ s, setState (m + 1) g' name true ft e2 = Except.error s) := by
  obtain ⟨hb, hg, he⟩ := kill_run h
  subst hg
  exact ⟨hb, rfl, fun m name ft e2 => setState_from_KILLED m _ name ft e2 rfl,
         fun m name ft e2 hn => setState_forced_from_KILLED rfl hn⟩

/-- C7 witness: killing the reachable three-player game lands in KILLED with
result `true`. -/
theorem c7_killed_is_terminal_witness :
    true = true ∧ exKilled.1.state = some "KILLED" :=
  ⟨(@c7_killed_is_terminal 8 exThree.1 exThree.2 exKilled.1 exKilled.2 true (by decide)).1,
   (@c7_killed_is_terminal 8 exThree.1 exThree.2 exKilled.1 exKilled.2 true (by decide)).2.1⟩

/-- `findHost` on a game with a nonempty player list cannot kill the game: it
either leaves everything but the host alone or re-elects `players[0]`. -/
theorem findHost_players {fuel : Nat} {g : Game} {e : Eff} {g' : Game}
    {e' : Eff} {b : Bool} {l : List Player}
    (hpl : g.players = some l) (h0 : 0 < l.length)
    (h : Game.findHost fuel g e = Except.ok (g', e', b)) :
    g'.state = g.state ∧ g'.players = g.players := by
  unfold Game.findHost at h
  cases hhh : g.hasHost with
  | error s => rw [hhh] at h; simp only [error_bind] at h; exact Except.noConfusion h
  | ok hh =>
  rw [hhh] at h
  simp only [ok_bind] at h
  split at h
  · have hhp : g.hasPlayers = Except.ok true := by
      unfold Game.hasPlayers
      rw [getPlayersE_some hpl]
      simp only [ok_bind, pure_eq_ok, Except.ok.injEq]
      exact decide_eq_true h0
    rw [hhp] at h
    simp only [ok_bind] at h
    rw [if_neg (by simp)] at h
    obtain ⟨y, hy, h⟩ := bind_ok_elim h
    obtain ⟨ga, ba⟩ := y
    try simp only [] at h
    simp only [pure_eq_ok, Except.ok.injEq, Prod.mk.injEq] at h
    obtain ⟨rfl, rfl, rfl⟩ := h
    obtain ⟨h1, h2, _⟩ := setHostByIndex_ok hy
    exact ⟨h1, h2⟩
  · simp only [pure_eq_ok, Except.ok.injEq, Prod.mk.injEq] at h
    obtain ⟨rfl, rfl, rfl⟩ := h
    exact ⟨rfl, rfl⟩

/-- C9: on every reachable game in state PLAYING, removing a member player by
a valid non-negative index succeeds with "Removed Played" and leaves the game
in WAITING — however many players remain (reachability gives at least three
before the removal, so the WAITING `to` guard's one-player demand holds). -/
theorem c9_remove_during_playing_waits {fuel : Nat} {g : Game} {index : Int}
    {e : Eff} {g' : Game} {e' : Eff} {r : Info} {l : List Player}
    (hr : Reach g) (hst : g.state = some "PLAYING")
    (hpl : g.players = some l)
    (h0 : 0 ≤ index) (hlen : index < (l.length : Int))
    (h : Game.removePlayerByIndex (fuel + 1) g index e = Except.ok (g', e', r)) :
    r = (true, some "Removed Played") ∧ g'.state = some "WAITING" := by
  have h3 : 3 ≤ l.length := by
    obtain ⟨k, hk, hk3⟩ := reach_playingInv hr hst
    rw [plen, hpl] at hk
    simp only [Option.map_some', Option.some.injEq] at hk
    omega
  unfold Game.removePlayerByIndex at h
  rw [if_neg (by omega)] at h
  rw [getPlayersE_some hpl] at h
  simp only [ok_bind] at h
  try simp only [] at h
  split at h
  case isFalse hlt => exact absurd hlen hlt
  case isTrue hlt =>
    split at h
    · obtain ⟨tri, hfh, h⟩ := bind_ok_elim h
      obtain ⟨ga, ea, ba⟩ := tri
      try simp only [] at h
      obtain ⟨y, hy, h⟩ := bind_ok_elim h
      obtain ⟨g2, e2⟩ := y
      simp only [pure_eq_ok, Except.ok.injEq, Prod.mk.injEq] at hy
      obtain ⟨rfl, rfl⟩ := hy
      try simp only [] at h
      obtain ⟨hgs, hgp⟩ := findHost_players rfl
        (by simp only [List.length_append, List.length_take, List.length_drop]; omega) hfh
      split at h
      case isTrue hpw =>
        obtain ⟨tri2, hs2, h⟩ := bind_ok_elim h
        obtain ⟨gb, eb, bb⟩ := tri2
        try simp only [] at h
        obtain ⟨y2, hy2, h⟩ := bind_ok_elim h
        obtain ⟨g3, e3⟩ := y2
        simp only [pure_eq_ok, Except.ok.injEq, Prod.mk.injEq] at hy2
        obtain ⟨rfl, rfl⟩ := hy2
        try simp only [] at h
        simp only [pure_eq_ok, Except.ok.injEq, Prod.mk.injEq] at h
        obtain ⟨rfl, rfl, rfl⟩ := h
        refine ⟨rfl, ?_⟩
        rcases setState_cases hs2 with ⟨_, rfl, _, _, hreason⟩ | ⟨_, _, hrun⟩
        · refine absurd (no_refuse_WAITING hpw hgp ?_ hreason) not_false
          have : (l.take index.toNat ++ l.drop (index.toNat + 1)).length = l.length - 1 := by
            simp only [List.length_append, List.length_take, List.length_drop]
            omega
          omega
        · rw [setHooksRun_WAITING_state hrun]
      case isFalse hpw =>
        exact absurd (hgs.trans hst) hpw
    · obtain ⟨y, hy, h⟩ := bind_ok_elim h
      obtain ⟨g2, e2⟩ := y
      simp only [pure_eq_ok, Except.ok.injEq, Prod.mk.injEq] at hy
      obtain ⟨rfl, rfl⟩ := hy
      try simp only [] at h
      split at h
      case isTrue hpw =>
        obtain ⟨tri2, hs2, h⟩ := bind_ok_elim h
        obtain ⟨gb, eb, bb⟩ := tri2
        try simp only [] at h
        obtain ⟨y2, hy2, h⟩ := bind_ok_elim h
        obtain ⟨g3, e3⟩ := y2
        simp only [pure_eq_ok, Except.ok.injEq, Prod.mk.injEq] at hy2
        obtain ⟨rfl, rfl⟩ := hy2
        try simp only [] at h
        simp only [pure_eq_ok, Except.ok.injEq, Prod.mk.injEq] at h
        obtain ⟨rfl, rfl, rfl⟩ := h
        refine ⟨rfl, ?_⟩
        rcases setState_cases hs2 with ⟨_, rfl, _, _, hreason⟩ | ⟨_, _, hrun⟩
        · refine absurd (no_refuse_WAITING ?_ rfl ?_ hreason) not_false
          · exact hpw
          · exact le_trans (by omega) (splice_len_ge (index.toNat) h3)
        · rw [setHooksRun_WAITING_state hrun]
      case isFalse hpw =>
        exact absurd hst hpw

/-- C9 witness: removing the host (index 0) of the started three-player
PLAYING game `exPlaying2` succeeds and drops the game back to WAITING. -/
theorem c9_remove_during_playing_waits_witness :
    ((true, some "Removed Played") : Info) = (true, some "Removed Played") ∧
    exRemPlay.1.state = some "WAITING" :=
  @c9_remove_during_playing_waits 8 exPlaying2.1 0 exPlaying2.2 exRemPlay.1
    exRemPlay.2 (true, some "Removed Played") (exPlaying2.1.players.getD [])
    reach_exPlaying2 (by decide) (by decide) (by decide) (by decide) (by decide)

/-- The `set`-stage hands piece by piece preserve the points column. -/
theorem removePlayerPlayedCards_points (p : Player) :
    (removePlayerPlayedCards p).points = p.points := by
  unfold removePlayerPlayedCards
  split <;> rfl

/-- Running the DEALING `set` hook (drop played cards, refill hands, pick a
tsar and a black card, then chain an unforced `setState("PLAYING")`) leaves
the state either where the hook found it or in PLAYING, and never changes any
player's points. -/
theorem setHooksRun_DEALING_run {n : Nat} {g2 : Game} {e2 : Eff} {g' : Game}
    {e' : Eff} {b : Bool}
    (h : setHooksRun (setState n) g2 "DEALING" e2 = Except.ok (g', e', b)) :
    (g'.state = g2.state ∨ g'.state = some "PLAYING") ∧
    pointsOf g' = pointsOf g2 := by
  unfold setHooksRun at h
  rw [if_neg (by decide), if_neg (by decide), if_pos rfl] at h
  obtain ⟨g3, h3, h⟩ := bind_ok_elim h
  try simp only [] at h
  obtain ⟨p4, h4, h⟩ := bind_ok_elim h
  obtain ⟨g4, e4⟩ := p4
  try simp only [] at h
  obtain ⟨p5, h5, h⟩ := bind_ok_elim h
  obtain ⟨g5, e5⟩ := p5
  try simp only [] at h
  obtain ⟨p6, h6, h⟩ := bind_ok_elim h
  obtain ⟨g6, e6⟩ := p6
  try simp only [] at h
  obtain ⟨p7, h7, h⟩ := bind_ok_elim h
  obtain ⟨g7, e7, b7⟩ := p7
  try simp only [] at h
  simp only [pure_eq_ok, Except.ok.injEq, Prod.mk.injEq] at h
  obtain ⟨rfl, rfl, rfl⟩ := h
  obtain ⟨l3, hpl3, rfl⟩ := removePlayersPlayedCards_ok h3
  obtain ⟨l4, s4, c4, hpl4, hs4, hc4, rfl, he4⟩ := fillAllPlayersCards_ok h4
  obtain ⟨l5, hpl5, rfl, he5⟩ := chooseTsar_ok h5
  obtain ⟨c6, hc6, rfl, he6⟩ := chooseBlackCard_ok h6
  have hl4 : l4 = l3.map removePlayerPlayedCards := by
    have h44 : some (l3.map removePlayerPlayedCards) = some l4 := hpl4
    exact (Option.some.inj h44).symm
  subst hl4
  have hpts : ∀ gx : Game, gx.players =
      some (fillList s4.playerCards c4 (l3.map removePlayerPlayedCards) e2).1 →
      pointsOf gx = pointsOf g2 := by
    intro gx hgx
    unfold pointsOf
    rw [hgx, hpl3]
    simp only [Option.map_some', Option.some.injEq]
    rw [fillList_points]
    simp [List.map_map, Function.comp_def, removePlayerPlayedCards_points]
  cases n with
  | zero => simp [setState] at h7
  | succ m =>
    rcases setState_plain_ok h7 (by decide) (by decide) (by decide) with
      ⟨_, rfl, _⟩ | ⟨_, rfl, _⟩
    · exact ⟨Or.inl rfl, hpts _ rfl⟩
    · exact ⟨Or.inr rfl, hpts _ rfl⟩

/-- From a state whose `from` hooks allow DEALING (and which DEALING's own
`to` guard accepts as a source), an unforced `setState("DEALING")` cannot be
refused. -/
theorem no_refuse_DEALING {g : Game} {cur : String}
    (hst : g.state = some cur)
    (hfrom : fromGuard cur "DEALING" = Except.ok true)
    (hto : g.state = some "WAITING" ∨ g.state = some "PLAYING" ∨
           g.state = some "INBETWEENTURN" ∨ g.state = some "TSARTURN")
    (hreason : ¬ "DEALING" ∈ knownStates ∨
      (∃ c f, g.state = some c ∧ fromGuard c "DEALING" = Except.ok f ∧ ¬ f = true) ∨
      (∃ fut, toGuard g "DEALING" = Except.ok fut ∧ ¬ fut = true)) : False := by
  rcases hreason with hk | ⟨c, f, hc, hfg, hf⟩ | ⟨fut, htg, hfut⟩
  · exact hk (by decide)
  · rw [hst] at hc
    obtain rfl : c = cur := (Option.some.inj hc).symm
    rw [hfrom] at hfg
    exact hf (Except.ok.inj hfg).symm
  · have htog : toGuard g "DEALING" = Except.ok true := by
      unfold toGuard
      rw [if_neg (by decide), if_neg (by decide), if_neg (by decide),
          if_neg (by decide), if_pos rfl]
      rw [decide_eq_true hto]
      rfl
    rw [htog] at htg
    exact hfut (Except.ok.inj htg).symm

/-- The `from` hooks of DEALING put no condition on leaving for PLAYING. -/
theorem fromGuard_DEALING_PLAYING :
    fromGuard "DEALING" "PLAYING" = Except.ok true := by decide

/-- DEALING registers no `unset` hooks. -/
theorem unsetHooks_DEALING (g : Game) : unsetHooks "DEALING" g = Except.ok g := by
  simp [unsetHooks, knownStates, pure_eq_ok]

/-- The chained unforced `setState("PLAYING")` out of DEALING, decided by
PLAYING's `to` guard: with at least three players the transition lands in
PLAYING (PLAYING registers no `set` hooks); with fewer it is refused and
changes nothing. -/
theorem setState_PLAYING_from_DEALING {m : Nat} {g : Game} {ft : Bool}
    {e : Eff} {g' : Game} {e' : Eff} {b : Bool} {L : List Player}
    (h : setState (m + 1) g "PLAYING" false ft e = Except.ok (g', e', b))
    (hst : g.state = some "DEALING") (hp : g.players = some L) :
    (3 ≤ L.length ∧ g' = { g with state := some "PLAYING" } ∧
      e' = { e with trace := e.trace ++ ["PLAYING"] } ∧ b = true) ∨
    (L.length < 3 ∧ g' = g ∧ e' = e ∧ b = false) := by
  by_cases h3 : 3 ≤ L.length
  · left
    have heq : setState (m + 1) g "PLAYING" false ft e =
        Except.ok ({ g with state := some "PLAYING" },
                   { e with trace := e.trace ++ ["PLAYING"] }, true) := by
      simp only [setState]
      rw [if_neg (by decide)]
      rw [hst]
      simp only [Bool.false_eq_true, if_false, fromGuard_DEALING_PLAYING, ok_bind]
      rw [if_neg (by simp)]
      unfold setStateCore
      rw [toGuard_PLAYING_some hp]
      simp only [ok_bind]
      rw [if_neg (by simp [decide_eq_true h3])]
      rw [hst]
      simp only [unsetHooks_DEALING, ok_bind]
      exact setHooksRun_plain _ _ (by decide) (by decide) (by decide)
    rw [heq] at h
    simp only [Except.ok.injEq, Prod.mk.injEq] at h
    exact ⟨h3, h.1.symm, h.2.1.symm, h.2.2.symm⟩
  · right
    have heq : setState (m + 1) g "PLAYING" false ft e =
        Except.ok (g, e, false) := by
      simp only [setState]
      rw [if_neg (by decide)]
      rw [hst]
      simp only [Bool.false_eq_true, if_false, fromGuard_DEALING_PLAYING, ok_bind]
      rw [if_neg (by simp)]
      unfold setStateCore
      rw [toGuard_PLAYING_some hp]
      simp only [ok_bind]
      rw [if_pos (by simp [h3])]
      rfl
    rw [heq] at h
    simp only [Except.ok.injEq, Prod.mk.injEq] at h
    exact ⟨Nat.lt_of_not_le h3, h.1.symm, h.2.1.symm, h.2.2.symm⟩

/-- Full outcome of the DEALING `set` hook: the pipeline keeps the player
count, and the chained unforced `setState("PLAYING")` succeeds exactly when
at least three players are present — otherwise the machine stays in
DEALING. -/
theorem setHooksRun_DEALING_chain {n : Nat} {g2 : Game} {e2 : Eff} {g' : Game}
    {e' : Eff} {b : Bool} (hst2 : g2.state = some "DEALING")
    (h : setHooksRun (setState n) g2 "DEALING" e2 = Except.ok (g', e', b)) :
    ∃ l2, g2.players = some l2 ∧ plen g' = some l2.length ∧
      ((3 ≤ l2.length ∧ g'.state = some "PLAYING") ∨
       (l2.length < 3 ∧ g'.state = some "DEALING")) := by
  unfold setHooksRun at h
  rw [if_neg (by decide), if_neg (by decide), if_pos rfl] at h
  obtain ⟨g3, h3, h⟩ := bind_ok_elim h
  try simp only [] at h
  obtain ⟨p4, h4, h⟩ := bind_ok_elim h
  obtain ⟨g4, e4⟩ := p4
  try simp only [] at h
  obtain ⟨p5, h5, h⟩ := bind_ok_elim h
  obtain ⟨g5, e5⟩ := p5
  try simp only [] at h
  obtain ⟨p6, h6, h⟩ := bind_ok_elim h
  obtain ⟨g6, e6⟩ := p6
  try simp only [] at h
  obtain ⟨p7, h7, h⟩ := bind_ok_elim h
  obtain ⟨g7, e7, b7⟩ := p7
  try simp only [] at h
  simp only [pure_eq_ok, Except.ok.injEq, Prod.mk.injEq] at h
  obtain ⟨rfl, rfl, rfl⟩ := h
  obtain ⟨l3, hpl3, rfl⟩ := removePlayersPlayedCards_ok h3
  obtain ⟨l4, s4, c4, hpl4, hs4, hc4, rfl, he4⟩ := fillAllPlayersCards_ok h4
  obtain ⟨l5, hpl5, rfl, he5⟩ := chooseTsar_ok h5
  obtain ⟨c6, hc6, rfl, he6⟩ := chooseBlackCard_ok h6
  have hl4 : l4 = l3.map removePlayerPlayedCards := by
    have h44 : some (l3.map removePlayerPlayedCards) = some l4 := hpl4
    exact (Option.some.inj h44).symm
  subst hl4
  have hlen : (fillList s4.playerCards c4 (l3.map removePlayerPlayedCards)
      e2).1.length = l3.length := by
    rw [fillList_length]
    exact List.length_map l3 removePlayerPlayedCards
  cases n with
  | zero => simp [setState] at h7
  | succ m =>
    rcases setState_PLAYING_from_DEALING h7 hst2 rfl with
      ⟨h3len, rfl, _, _⟩ | ⟨h3len, rfl, _, _⟩
    · refine ⟨l3, hpl3, ?_, Or.inl ⟨by rw [← hlen]; exact h3len, rfl⟩⟩
      rw [plen]
      simp only [Option.map_some', Option.some.injEq]
      exact hlen
    · refine ⟨l3, hpl3, ?_, Or.inr ⟨by rw [← hlen]; exact h3len, hst2⟩⟩
      rw [plen]
      simp only [Option.map_some', Option.some.injEq]
      exact hlen

/-- C3 (amended): `start()` is a domain error (flag `false`, nothing changes)
unless the state is WAITING; from WAITING it triggers DEALING, whose `set`
hook chains an unforced `setState("PLAYING")` — the player count is
preserved, and a successful `start()` ends in PLAYING exactly when that
chain's guard (at least three players) passes, remaining in DEALING
otherwise. -/
theorem c3_start_outcomes {fuel : Nat} {g : Game} {e : Eff} {g' : Game}
    {e' : Eff} {b : Bool} {msg : Option String}
    (h : Game.start (fuel + 1) g e = Except.ok (g', e', (b, msg))) :
    (¬ g.state = some "WAITING" → b = false ∧ g' = g ∧ e' = e) ∧
    (b = true → ∃ k, plen g = some k ∧ plen g' = some k ∧
      ((3 ≤ k ∧ g'.state = some "PLAYING") ∨
       (k < 3 ∧ g'.state = some "DEALING"))) := by
  unfold Game.start at h
  split at h
  case isTrue hne =>
    simp only [pure_eq_ok, Except.ok.injEq, Prod.mk.injEq] at h
    obtain ⟨rfl, rfl, rfl, rfl⟩ := h
    exact ⟨fun _ => ⟨rfl, rfl, rfl⟩, fun hb => absurd hb (by decide)⟩
  case isFalse hne =>
    have hw : g.state = some "WAITING" := not_not.mp hne
    obtain ⟨tri, hs, h⟩ := bind_ok_elim h
    obtain ⟨g1, e1, b1⟩ := tri
    try simp only [] at h
    simp only [pure_eq_ok, Except.ok.injEq, Prod.mk.injEq] at h
    obtain ⟨rfl, rfl, rfl, rfl⟩ := h
    refine ⟨fun hcon => absurd hw hcon, fun _ => ?_⟩
    rcases setState_cases hs with ⟨_, rfl, _, _, hreason⟩ | ⟨_, _, hrun⟩
    · exact absurd (no_refuse_DEALING hw (by decide) (Or.inl hw) hreason) not_false
    · obtain ⟨l2, hpl2, hplen, hcases⟩ := setHooksRun_DEALING_chain rfl hrun
      refine ⟨l2.length, ?_, hplen, hcases⟩
      rw [plen]
      rw [show g.players = some l2 from hpl2]
      rfl

/-- C3 witness: starting the reachable three-player game (its deck empty)
succeeds, keeps the player count 3, and — three being enough for PLAYING's
`to` guard — lands in PLAYING. -/
theorem c3_start_outcomes_witness :
    ∃ k, plen exThree.1 = some k ∧ plen exStartedEmptyDeck.1 = some k ∧
      ((3 ≤ k ∧ exStartedEmptyDeck.1.state = some "PLAYING") ∨
       (k < 3 ∧ exStartedEmptyDeck.1.state = some "DEALING")) :=
  (@c3_start_outcomes 8 exThree.1 exThree.2 exStartedEmptyDeck.1
      exStartedEmptyDeck.2 true none (by decide)).2 rfl

/-- `getD` at an in-range position is a member of the list. -/
theorem getD_mem {α : Type} (l : List α) :
    ∀ (n : Nat) (d : α), n < l.length → l.getD n d ∈ l := by
  induction l with
  | nil => intro n d h; simp at h
  | cons a t ih =>
    intro n d h
    cases n with
    | zero => simp [List.getD]
    | succ m =>
      have hm : m < t.length := by simp only [List.length_cons] at h; omega
      have := ih m d hm
      simp only [List.getD_cons_succ]
      exact List.mem_cons_of_mem a this

/-- Setting one player and projecting points is projecting points and setting
one entry. -/
theorem map_points_set (L : List Player) (n : Nat) (p : Player) :
    (L.set n p).map Player.points = (L.map Player.points).set n p.points := by
  rw [List.map_set]

/-- The rendered choice list pairs each position with its text: mapping the
renderer over the position list keeps the positions as first components. -/
theorem mapM_pairs_fst {g : Game} {l0 : List Player} :
    ∀ (pos : List Nat) (choices : List (Nat × String)),
      (pos.mapM fun i => do
          let t ← Game.getFilledInText g (l0.getD i defaultPlayer)
          pure ((i : Nat), t)) = Except.ok choices →
      choices.map Prod.fst = pos := by
  intro pos
  induction pos with
  | nil =>
    intro choices h
    rw [List.mapM_nil] at h
    simp only [pure_eq_ok, Except.ok.injEq] at h
    rw [← h]
    rfl
  | cons a as ih =>
    intro choices h
    rw [List.mapM_cons] at h
    obtain ⟨x, hx, h⟩ := bind_ok_elim h
    try simp only [] at h
    obtain ⟨xs, hxs, h⟩ := bind_ok_elim h
    simp only [pure_eq_ok, Except.ok.injEq] at h
    rw [← h]
    obtain ⟨t, ht, hx2⟩ := bind_ok_elim hx
    simp only [pure_eq_ok, Except.ok.injEq] at hx2
    rw [← hx2]
    simp [ih xs hxs]

/-- A forced transition to ENDGAME cannot be refused and runs no `set` hook
beyond the state assignment. -/
theorem setState_forced_ENDGAME {n : Nat} {g : Game} {ft : Bool} {e : Eff}
    {g' : Game} {e' : Eff} {b : Bool}
    (h : setState (n + 1) g "ENDGAME" true ft e = Except.ok (g', e', b)) :
    g' = { g with state := some "ENDGAME" } ∧
    e' = { e with trace := e.trace ++ ["ENDGAME"] } := by
  rcases setState_cases h with ⟨_, _, _, hff, _⟩ | ⟨_, _, hr⟩
  · exact absurd (hff (by decide)) (by decide)
  · rw [setHooksRun_plain _ _ (by decide) (by decide) (by decide)] at hr
    simp only [Except.ok.injEq, Prod.mk.injEq] at hr
    exact ⟨hr.1.symm, hr.2.1.symm⟩

/-- `Game#checkWinner` characterized: no winner leaves everything unchanged
with `false`; at least one winner forces ENDGAME and yields `true`. -/
theorem checkWinner_run {n : Nat} {g : Game} {e : Eff} {g' : Game} {e' : Eff}
    {won : Bool} (h : Game.checkWinner (n + 1) g e = Except.ok (g', e', won)) :
    ∃ w, Game.getWinners g = Except.ok w ∧
      ((won = false ∧ w.length = 0 ∧ g' = g ∧ e' = e) ∨
       (won = true ∧ ¬ w.length = 0 ∧ g' = { g with state := some "ENDGAME" } ∧
         e' = { e with trace := e.trace ++ ["ENDGAME"] })) := by
  unfold Game.checkWinner at h
  obtain ⟨w, hw, h⟩ := bind_ok_elim h
  try simp only [] at h
  split at h
  case isTrue hz =>
    simp only [pure_eq_ok, Except.ok.injEq, Prod.mk.injEq] at h
    obtain ⟨rfl, rfl, rfl⟩ := h
    exact ⟨w, hw, Or.inl ⟨rfl, hz, rfl, rfl⟩⟩
  case isFalse hz =>
    obtain ⟨tri, hs, h⟩ := bind_ok_elim h
    obtain ⟨ga, ea, ba⟩ := tri
    try simp only [] at h
    simp only [pure_eq_ok, Except.ok.injEq, Prod.mk.injEq] at h
    obtain ⟨rfl, rfl, rfl⟩ := h
    obtain ⟨rfl, rfl⟩ := setState_forced_ENDGAME hs
    exact ⟨w, hw, Or.inr ⟨rfl, hz, rfl, rfl⟩⟩

/-- C2 (amended): a successful `chooseTurnWinnerByIndex` implies the caller
is the registered tsar, the state is TSARTURN and the index addresses an
entry of the rendered choice list; exactly one player's points rise by
exactly 1; and the follow-up depends on `checkWinner`: with no winner the
machine triggers DEALING (whose `set` hook may immediately chain on to
PLAYING), with a winner it is forced into ENDGAME. -/
theorem c2_chooseTurnWinner_outcomes {fuel : Nat} {g : Game} {tsar : Nat}
    {index : Int} {e : Eff} {g' : Game} {e' : Eff} {msg : Option String}
    (h : Game.chooseTurnWinnerByIndex (fuel + 1) g tsar index e
          = Except.ok (g', e', (true, msg))) :
    g.isTsar tsar = true ∧
    g.state = some "TSARTURN" ∧
    (∃ choices, Game.getFilledInCardsWithPlayer g = Except.ok choices ∧
        0 ≤ index ∧ index < (choices.length : Int)) ∧
    (∃ l pos, g.players = some l ∧ pos < l.length ∧
      pointsOf g' = some ((l.map Player.points).set pos
          ((l.getD pos defaultPlayer).points + 1)) ∧
      (∃ w, Game.getWinners { g with players := some (l.set pos
              { l.getD pos defaultPlayer with
                  points := (l.getD pos defaultPlayer).points + 1 }) }
            = Except.ok w ∧
        ((w.length = 0 ∧ (g'.state = some "DEALING" ∨ g'.state = some "PLAYING")) ∨
         (¬ w.length = 0 ∧ g'.state = some "ENDGAME")))) := by
  unfold Game.chooseTurnWinnerByIndex at h
  split at h
  case isTrue h1 =>
    simp only [pure_eq_ok, Except.ok.injEq, Prod.mk.injEq] at h
    exact absurd h.2.2.1 (by decide)
  case isFalse h1 =>
    have ht : g.isTsar tsar = true := by
      by_contra hc
      exact h1 (by simpa using hc)
    split at h
    case isTrue h2 =>
      simp only [pure_eq_ok, Except.ok.injEq, Prod.mk.injEq] at h
      exact absurd h.2.2.1 (by decide)
    case isFalse h2 =>
      have hts : g.state = some "TSARTURN" := not_not.mp h2
      obtain ⟨choices, hch, h⟩ := bind_ok_elim h
      try simp only [] at h
      split at h
      case isTrue h3 =>
        simp only [pure_eq_ok, Except.ok.injEq, Prod.mk.injEq] at h
        exact absurd h.2.2.1 (by decide)
      case isFalse hrange =>
        have hidx : 0 ≤ index ∧ index < (choices.length : Int) := by
          push_neg at hrange
          omega
        obtain ⟨l, hl, h⟩ := bind_ok_elim h
        have hpl : g.players = some l := getPlayersE_ok.mp hl
        try simp only [] at h
        obtain ⟨tri, hcw, h⟩ := bind_ok_elim h
        obtain ⟨g2, e2, won⟩ := tri
        try simp only [] at h
        have hposlt : (choices.getD index.toNat (0, "")).1 < l.length := by
          have hnat : index.toNat < choices.length := by omega
          have hmem : choices.getD index.toNat (0, "") ∈ choices :=
            getD_mem choices index.toNat (0, "") hnat
          have hposL : Game.playingPositions g = Except.ok
              ((List.range l.length).filter fun i =>
                ¬ g.isTsar ((l.getD i defaultPlayer).pid)) := by
            unfold Game.playingPositions
            rw [getPlayersE_some hpl]
            simp only [ok_bind, pure_eq_ok]
          unfold Game.getFilledInCardsWithPlayer at hch
          rw [getPlayersE_some hpl] at hch
          simp only [ok_bind] at hch
          rw [hposL] at hch
          simp only [ok_bind] at hch
          have hfst := mapM_pairs_fst _ _ hch
          have hmem2 : (choices.getD index.toNat (0, "")).1 ∈
              (List.range l.length).filter fun i =>
                ¬ g.isTsar ((l.getD i defaultPlayer).pid) := by
            rw [← hfst]
            exact List.mem_map_of_mem Prod.fst hmem
          exact List.mem_range.mp (List.mem_filter.mp hmem2).1
        have hptsl : pointsOf { g with players := some (l.set
              (choices.getD index.toNat (0, "")).1
              { l.getD (choices.getD index.toNat (0, "")).1 defaultPlayer with
                  points := (l.getD (choices.getD index.toNat (0, "")).1
                    defaultPlayer).points + 1 }) } =
            some ((l.map Player.points).set (choices.getD index.toNat (0, "")).1
              ((l.getD (choices.getD index.toNat (0, "")).1 defaultPlayer).points + 1)) := by
          unfold pointsOf
          simp only [Option.map_some', Option.some.injEq]
          rw [map_points_set]
        refine ⟨ht, hts, ⟨choices, hch, hidx.1, hidx.2⟩, ?_⟩
        obtain ⟨w, hw, hdis⟩ := checkWinner_run hcw
        split at h
        case isTrue hnw =>
          obtain ⟨tri2, hds, h⟩ := bind_ok_elim h
          obtain ⟨g3, e3, b3⟩ := tri2
          try simp only [] at h
          simp only [pure_eq_ok, Except.ok.injEq, Prod.mk.injEq] at h
          obtain ⟨rfl, rfl, _, rfl⟩ := h
          rcases hdis with ⟨hwon, hwzero, rfl, rfl⟩ | ⟨hwon, _, _, _⟩
          · refine ⟨l, (choices.getD index.toNat (0, "")).1, hpl, hposlt, ?_, w, hw,
              Or.inl ⟨hwzero, ?_⟩⟩
            · rcases setState_cases hds with ⟨_, rfl, _, _, hreason⟩ | ⟨_, _, hrun⟩
              · exact hptsl
              · exact ((setHooksRun_DEALING_run hrun).2).trans hptsl
            · rcases setState_cases hds with ⟨_, rfl, _, _, hreason⟩ | ⟨_, _, hrun⟩
              · exact absurd (no_refuse_DEALING hts (by decide)
                  (Or.inr (Or.inr (Or.inr hts))) hreason) not_false
              · rcases (setHooksRun_DEALING_run hrun).1 with hsx | hsx
                · exact Or.inl hsx
                · exact Or.inr hsx
          · exact absurd hwon hnw
        case isFalse hnw =>
          simp only [pure_eq_ok, Except.ok.injEq, Prod.mk.injEq] at h
          obtain ⟨rfl, rfl, _, rfl⟩ := h
          rcases hdis with ⟨hwon, _, _, _⟩ | ⟨hwon, hwnz, rfl, rfl⟩
          · have hwt : won = true := by simpa using hnw
            rw [hwon] at hwt
            exact absurd hwt (by decide)
          · exact ⟨l, (choices.getD index.toNat (0, "")).1, hpl, hposlt, hptsl, w, hw,
              Or.inr ⟨hwnz, rfl⟩⟩

/-- C2 (counterexample): on a TSARTURN game with no winner in sight, a
successful tsar choice ends in PLAYING, not DEALING — the DEALING `set` hook
immediately re-deals and chains to PLAYING (three players are present). -/
theorem c2_no_winner_choice_ends_in_playing :
    Game.chooseTurnWinnerByIndex gFuel exTsarGame 3 0 exEff
      = Except.ok (exChosen.1, exChosen.2, (true, none)) ∧
    pointsOf exTsarGame = some [0, 0, 0] ∧
    pointsOf exChosen.1 = some [1, 0, 0] ∧
    ¬ exChosen.1.state = some "DEALING" ∧
    exChosen.1.state = some "PLAYING" := by
  decide

/-- C2 witness: the amended characterization applied to the concrete
TSARTURN game. -/
theorem c2_chooseTurnWinner_outcomes_witness :
    exTsarGame.isTsar 3 = true ∧ exTsarGame.state = some "TSARTURN" :=
  ⟨(@c2_chooseTurnWinner_outcomes 8 exTsarGame 3 0 exEff exChosen.1 exChosen.2
      none (by decide)).1,
   (@c2_chooseTurnWinner_outcomes 8 exTsarGame 3 0 exEff exChosen.1 exChosen.2
      none (by decide)).2.1⟩

/-- Read the black card back from a successful `getBlackCardE`. -/
theorem getBlackCardE_ok {g : Game} {bc : BlackCard}
    (h : getBlackCardE g = Except.ok bc) : g.blackCard = some bc := by
  unfold getBlackCardE at h
  cases hx : g.blackCard with
  | none => rw [hx] at h; exact Except.noConfusion h
  | some c =>
    rw [hx] at h
    simp only [pure_eq_ok, Except.ok.injEq] at h
    exact congrArg some h

/-- C6 (amended): an `ok` run of `playByCardIndex` with flag `false` changes
nothing and pins one of the four refusal reasons, each read off the game (so
the checks only happen in source order once the earlier reads succeeded: in
particular the played-count and index checks presuppose a non-null black
card); a run with flag `true` certifies all four checks passed and appends
the index to the player's `played`.  (A null black card in PLAYING makes the
call throw instead of returning a domain error.) -/
theorem c6_playByCardIndex_outcomes {fuel : Nat} {g : Game} {pIdx : Nat}
    {index : Int} {e : Eff} {g' : Game} {e' : Eff} {b : Bool} {msg : Option String}
    (h : Game.playByCardIndex (fuel + 1) g pIdx index e = Except.ok (g', e', (b, msg))) :
    (b = false → g' = g ∧ e' = e ∧
      (¬ g.state = some "PLAYING" ∨
       (∃ l, g.players = some l ∧
         (g.isTsar (l.getD pIdx defaultPlayer).pid = true ∨
          (∃ bc, g.blackCard = some bc ∧
            (bc.getFillCount ≤ (l.getD pIdx defaultPlayer).played.length ∨
             ¬ (0 ≤ index ∧ index < ((l.getD pIdx defaultPlayer).cards.length : Int) ∧
                (jsIndex (l.getD pIdx defaultPlayer).cards index).isSome = true))))))) ∧
    (b = true →
      g.state = some "PLAYING" ∧
      (∃ l bc, g.players = some l ∧ g.blackCard = some bc ∧
        ¬ g.isTsar (l.getD pIdx defaultPlayer).pid = true ∧
        (l.getD pIdx defaultPlayer).played.length < bc.getFillCount ∧
        0 ≤ index ∧ index < ((l.getD pIdx defaultPlayer).cards.length : Int) ∧
        (jsIndex (l.getD pIdx defaultPlayer).cards index).isSome = true ∧
        g'.players = some (l.set pIdx
          { l.getD pIdx defaultPlayer with
              played := (l.getD pIdx defaultPlayer).played ++ [index.toNat] }))) := by
  unfold Game.playByCardIndex at h
  split at h
  case isTrue hs =>
    simp only [pure_eq_ok, Except.ok.injEq, Prod.mk.injEq] at h
    obtain ⟨rfl, rfl, rfl, rfl⟩ := h
    exact ⟨fun _ => ⟨rfl, rfl, Or.inl hs⟩, fun hb => absurd hb (by decide)⟩
  case isFalse hs =>
    have hp : g.state = some "PLAYING" := not_not.mp hs
    obtain ⟨l, hl, h⟩ := bind_ok_elim h
    have hpl : g.players = some l := getPlayersE_ok.mp hl
    try simp only [] at h
    split at h
    case isTrue h4 =>
      simp only [pure_eq_ok, Except.ok.injEq, Prod.mk.injEq] at h
      obtain ⟨rfl, rfl, rfl, rfl⟩ := h
      exact ⟨fun _ => ⟨rfl, rfl, Or.inr ⟨l, hpl, Or.inl h4⟩⟩,
             fun hb => absurd hb (by decide)⟩
    case isFalse h4 =>
      obtain ⟨bc, hbc0, h⟩ := bind_ok_elim h
      have hbc : g.blackCard = some bc := getBlackCardE_ok hbc0
      try simp only [] at h
      split at h
      case isTrue h5 =>
        simp only [pure_eq_ok, Except.ok.injEq, Prod.mk.injEq] at h
        obtain ⟨rfl, rfl, rfl, rfl⟩ := h
        exact ⟨fun _ => ⟨rfl, rfl, Or.inr ⟨l, hpl, Or.inr ⟨bc, hbc, Or.inl h5⟩⟩⟩,
               fun hb => absurd hb (by decide)⟩
      case isFalse h5 =>
        have hlt : (l.getD pIdx defaultPlayer).played.length < bc.getFillCount :=
          Nat.not_le.mp h5
        split at h
        case isTrue h6 =>
          simp only [pure_eq_ok, Except.ok.injEq, Prod.mk.injEq] at h
          obtain ⟨rfl, rfl, rfl, rfl⟩ := h
          exact ⟨fun _ => ⟨rfl, rfl, Or.inr ⟨l, hpl, Or.inr ⟨bc, hbc, Or.inr h6⟩⟩⟩,
                 fun hb => absurd hb (by decide)⟩
        case isFalse h6 =>
          obtain ⟨hv0, hv1, hv2⟩ := not_not.mp h6
          obtain ⟨done, hdone, h⟩ := bind_ok_elim h
          try simp only [] at h
          split at h
          case isTrue hdn =>
            obtain ⟨tri, hsa, h⟩ := bind_ok_elim h
            obtain ⟨ga, ea, ba⟩ := tri
            try simp only [] at h
            obtain ⟨tri2, hsb, h⟩ := bind_ok_elim h
            obtain ⟨gb, eb, bb⟩ := tri2
            try simp only [] at h
            obtain ⟨y, hy, h⟩ := bind_ok_elim h
            obtain ⟨g2, e2⟩ := y
            simp only [pure_eq_ok, Except.ok.injEq, Prod.mk.injEq] at hy
            obtain ⟨rfl, rfl⟩ := hy
            try simp only [] at h
            simp only [pure_eq_ok, Except.ok.injEq, Prod.mk.injEq] at h
            obtain ⟨rfl, rfl, rfl, rfl⟩ := h
            refine ⟨fun hb => absurd hb (by decide),
                    fun _ => ⟨hp, l, bc, hpl, hbc, h4, hlt, hv0, hv1, hv2, ?_⟩⟩
            have hpa : ga.players = some (l.set pIdx
                { l.getD pIdx defaultPlayer with
                    played := (l.getD pIdx defaultPlayer).played ++ [index.toNat] }) := by
              rcases setState_plain_ok hsa (by decide) (by decide) (by decide) with
                ⟨_, rfl, _⟩ | ⟨_, rfl, _⟩ <;> rfl
            have hpb : gb.players = ga.players := by
              rcases setState_plain_ok hsb (by decide) (by decide) (by decide) with
                ⟨_, rfl, _⟩ | ⟨_, rfl, _⟩ <;> rfl
            exact hpb.trans hpa
          case isFalse hdn =>
            obtain ⟨y, hy, h⟩ := bind_ok_elim h
            obtain ⟨g2, e2⟩ := y
            simp only [pure_eq_ok, Except.ok.injEq, Prod.mk.injEq] at hy
            obtain ⟨rfl, rfl⟩ := hy
            try simp only [] at h
            simp only [pure_eq_ok, Except.ok.injEq, Prod.mk.injEq] at h
            obtain ⟨rfl, rfl, rfl, rfl⟩ := h
            exact ⟨fun hb => absurd hb (by decide),
                   fun _ => ⟨hp, l, bc, hpl, hbc, h4, hlt, hv0, hv1, hv2, rfl⟩⟩

/-- C6 witness: the amended characterization applied to the reachable
PLAYING game `exPlaying2` and its successful play of hand index 0. -/
theorem c6_playByCardIndex_outcomes_witness :
    exPlaying2.1.state = some "PLAYING" :=
  ((@c6_playByCardIndex_outcomes 8 exPlaying2.1 1 0 exPlaying2.2 exPlayedOnce.1
      exPlayedOnce.2 true none (by decide)).2 rfl).1

/-- `indexOf` over an appended list whose left part has no hit finds the
right part's first hit, offset by the left length. -/
theorem idxOfWid_append_left (w : Nat) :
    ∀ (cw l : List WhiteCard), (∀ y ∈ cw, ¬ y.wid = w) →
      idxOfWid (cw ++ l) w = (idxOfWid l w).map (fun i => i + cw.length) := by
  intro cw
  induction cw with
  | nil =>
    intro l h
    simp [idxOfWid]
  | cons a t ih =>
    intro l h
    have ha : ¬ a.wid = w := h a (List.mem_cons_self a t)
    simp only [List.cons_append, idxOfWid, if_neg ha]
    rw [List.append_eq, ih l (fun y hy => h y (List.mem_cons_of_mem a hy))]
    cases idxOfWid l w with
    | none => rfl
    | some i =>
      simp only [Option.map_some', Option.map_map, List.length_cons]
      rfl

/-- Black-card counterpart of `idxOfWid_append_left`. -/
theorem idxOfBid_append_left (bident : Nat) :
    ∀ (cb l : List BlackCard), (∀ y ∈ cb, ¬ y.bid = bident) →
      idxOfBid (cb ++ l) bident = (idxOfBid l bident).map (fun i => i + cb.length) := by
  intro cb
  induction cb with
  | nil =>
    intro l h
    simp [idxOfBid]
  | cons a t ih =>
    intro l h
    have ha : ¬ a.bid = bident := h a (List.mem_cons_self a t)
    simp only [List.cons_append, idxOfBid, if_neg ha]
    rw [List.append_eq, ih l (fun y hy => h y (List.mem_cons_of_mem a hy))]
    cases idxOfBid l bident with
    | none => rfl
    | some i =>
      simp only [Option.map_some', Option.map_map, List.length_cons]
      rfl

/-- Splicing out, by identity, the head of the appended tail removes exactly
that element when the prefix has no card of the same identity. -/
theorem spliceOutWhite_append (cw rest : List WhiteCard) (x : WhiteCard)
    (h : ∀ y ∈ cw, ¬ y.wid = x.wid) :
    spliceOutWhite (cw ++ x :: rest) x.wid = cw ++ rest := by
  have hidx : idxOfWid (cw ++ x :: rest) x.wid = some cw.length := by
    rw [idxOfWid_append_left x.wid cw (x :: rest) h]
    simp only [idxOfWid, if_pos rfl, Option.map_some']
    simp
  unfold spliceOutWhite
  rw [hidx]
  have hdrop : (cw ++ x :: rest).drop (cw.length + 1) = rest := by
    have h1 : cw ++ x :: rest = (cw ++ [x]) ++ rest := by simp
    have h2 : cw.length + 1 = (cw ++ [x]).length := by simp
    rw [h1, h2, List.drop_left]
  have htake : (cw ++ x :: rest).take cw.length = cw := List.take_left cw (x :: rest)
  show (cw ++ x :: rest).take cw.length ++ (cw ++ x :: rest).drop (cw.length + 1) = cw ++ rest
  rw [htake, hdrop]

/-- Black-card counterpart of `spliceOutWhite_append`. -/
theorem spliceOutBlack_append (cb rest : List BlackCard) (x : BlackCard)
    (h : ∀ y ∈ cb, ¬ y.bid = x.bid) :
    spliceOutBlack (cb ++ x :: rest) x.bid = cb ++ rest := by
  have hidx : idxOfBid (cb ++ x :: rest) x.bid = some cb.length := by
    rw [idxOfBid_append_left x.bid cb (x :: rest) h]
    simp only [idxOfBid, if_pos rfl, Option.map_some']
    simp
  unfold spliceOutBlack
  rw [hidx]
  have hdrop : (cb ++ x :: rest).drop (cb.length + 1) = rest := by
    have h1 : cb ++ x :: rest = (cb ++ [x]) ++ rest := by simp
    have h2 : cb.length + 1 = (cb ++ [x]).length := by simp
    rw [h1, h2, List.drop_left]
  have htake : (cb ++ x :: rest).take cb.length = cb := List.take_left cb (x :: rest)
  show (cb ++ x :: rest).take cb.length ++ (cb ++ x :: rest).drop (cb.length + 1) = cb ++ rest
  rw [htake, hdrop]

/-- Splicing out, in order, every card the merge appended restores the
original white list, when the appended identities were disjoint from it. -/
theorem foldl_splice_white :
    ∀ (colw cw : List WhiteCard),
      (∀ w ∈ colw, ∀ y ∈ cw, ¬ y.wid = w.wid) →
      colw.foldl (fun acc w => spliceOutWhite acc w.wid) (cw ++ colw) = cw := by
  intro colw
  induction colw with
  | nil => intro cw h; simp
  | cons x rest ih =>
    intro cw h
    simp only [List.foldl_cons]
    rw [spliceOutWhite_append cw rest x (h x (List.mem_cons_self x rest))]
    exact ih cw (fun w hwm y hy => h w (List.mem_cons_of_mem x hwm) y hy)

/-- Black-card counterpart of `foldl_splice_white`. -/
theorem foldl_splice_black :
    ∀ (colb cb : List BlackCard),
      (∀ w ∈ colb, ∀ y ∈ cb, ¬ y.bid = w.bid) →
      colb.foldl (fun acc w => spliceOutBlack acc w.bid) (cb ++ colb) = cb := by
  intro colb
  induction colb with
  | nil => intro cb h; simp
  | cons x rest ih =>
    intro cb h
    simp only [List.foldl_cons]
    rw [spliceOutBlack_append cb rest x (h x (List.mem_cons_self x rest))]
    exact ih cb (fun w hwm y hy => h w (List.mem_cons_of_mem x hwm) y hy)

/-- Every card the merged-in collection contributed is found in the merged
list (it is its own witness), so `unmerge` collects the whole contribution. -/
theorem filter_found_white (cw colw : List WhiteCard) :
    (colw.filter fun w => decide (∃ x ∈ cw ++ colw, x.wid = w.wid)) = colw := by
  apply List.filter_eq_self.mpr
  intro w hwm
  exact decide_eq_true ⟨w, List.mem_append_right cw hwm, rfl⟩

/-- Black-card counterpart of `filter_found_white`. -/
theorem filter_found_black (cb colb : List BlackCard) :
    (colb.filter fun w => decide (∃ x ∈ cb ++ colb, x.bid = w.bid)) = colb := by
  apply List.filter_eq_self.mpr
  intro w hwm
  exact decide_eq_true ⟨w, List.mem_append_right cb hwm, rfl⟩

/-- C8 (amended): a second `merge` of the same collection is always a no-op
returning `false`; and when the first merge succeeded and the merged-in
cards' identities are disjoint from the target's, `unmerge` restores the
white and black lists exactly.  (With aliased identities the splice removes
the target's own copy first, so only the multiset — not the list — is
restored.) -/
theorem c8_merge_unmerge {c o : CardCollection}
    (hm : (c.merge o).2 = true)
    (hw : ∀ w ∈ o.white, ∀ x ∈ c.white, ¬ x.wid = w.wid)
    (hb : ∀ b ∈ o.black, ∀ x ∈ c.black, ¬ x.bid = b.bid) :
    (∀ c2 o2 : CardCollection, (c2.merge o2).1.merge o2 = ((c2.merge o2).1, false)) ∧
    ((c.merge o).1.unmerge o false).2 = true ∧
    ((c.merge o).1.unmerge o false).1.white = c.white ∧
    ((c.merge o).1.unmerge o false).1.black = c.black := by
  have hnotin : ¬ o.cid ∈ c.fromCols := by
    by_contra hcin
    unfold CardCollection.merge at hm
    rw [if_pos hcin] at hm
    simp at hm
  have hmerge1 : c.merge o =
      ({ c with
          white := c.white ++ o.white,
          black := c.black ++ o.black,
          fromCols := c.fromCols ++ [o.cid] }, true) := by
    unfold CardCollection.merge
    rw [if_neg hnotin]
  have hguard : ¬ (¬ ((c.merge o).1.isFrom o) = true ∧ false = false) := by
    rw [hmerge1]
    simp [CardCollection.isFrom]
  refine ⟨?_, ?_, ?_, ?_⟩
  · intro c2 o2
    by_cases h2 : o2.cid ∈ c2.fromCols
    · have he : c2.merge o2 = (c2, false) := by
        unfold CardCollection.merge
        rw [if_pos h2]
      rw [he]
      unfold CardCollection.merge
      rw [if_pos h2]
    · have he : c2.merge o2 =
          ({ c2 with
              white := c2.white ++ o2.white,
              black := c2.black ++ o2.black,
              fromCols := c2.fromCols ++ [o2.cid] }, true) := by
        unfold CardCollection.merge
        rw [if_neg h2]
      rw [he]
      unfold CardCollection.merge
      rw [if_pos (by simp)]
  · unfold CardCollection.unmerge
    rw [if_neg hguard]
  · unfold CardCollection.unmerge
    rw [if_neg hguard]
    rw [hmerge1]
    show ((o.white.filter fun w => decide (∃ x ∈ c.white ++ o.white, x.wid = w.wid)).foldl
      (fun acc w => spliceOutWhite acc w.wid) (c.white ++ o.white)) = c.white
    rw [filter_found_white]
    exact foldl_splice_white o.white c.white hw
  · unfold CardCollection.unmerge
    rw [if_neg hguard]
    rw [hmerge1]
    show ((o.black.filter fun w => decide (∃ x ∈ c.black ++ o.black, x.bid = w.bid)).foldl
      (fun acc w => spliceOutBlack acc w.bid) (c.black ++ o.black)) = c.black
    rw [filter_found_black]
    exact foldl_splice_black o.black c.black hb

/-- C8 witness: merging the disjoint deck `exDeck2` into `colA` and unmerging
it restores the white list exactly. -/
theorem c8_merge_unmerge_witness :
    ((colA.merge exDeck2).1.unmerge exDeck2 false).1.white = colA.white :=
  (c8_merge_unmerge (by decide) (by decide) (by decide)).2.2.1

end CAH
